import Mathlib

/-!
# rofi: filter pipeline and selection state

A shallow embedding of the filtering and navigation core of rofi
(`source/view.c`, `source/rofi.c`, `source/dialogs/combi.c`) together with the
properties proved about it.

Conventions of the embedding:

* a C string is the list of its characters before the terminating NUL;
* an array reached through a pointer (`line_map`, `distance`) is a map from
  index to cell value; `g_malloc0_n` yields the all-zero map;
* `unsigned int` cursor arithmetic in the navigation functions wraps modulo
  `2^32` and is written out explicitly, also in the two scroll functions;
  entry counts and indices of the filter pass are natural numbers (the sums
  `num_lines + nt` and `i * steps` of the partitioning stay far below `2^32`
  for every list whose `thread_state` array fits on the stack), and so are
  the row, column and entry counts of the grid calculation;
* `int` values of the edit distance code are integers (its table of
  `(ls+1)*(lt+1)` cells lives on the stack, which keeps the string lengths far
  below `2^31`);
* code that can trap (out of bounds table access, division by zero, running
  out of recursion depth) returns `Option`.
-/

namespace Rofi

/-! ## Edit distance (`source/rofi.c`) -/

/-- The assignment `return d[idx] = x` that ends `dist`: the cell is written
and the value returned; `none` when the index lies outside the table. -/
def dist_store (d : List Int) (idx : Nat) (x : Int) : Option (Int × List Int) :=
  if idx < d.length then some (x, d.set idx x) else none

/-- The C function `dist ( s, t, d, ls, lt, i, j )`.  The memo table `d` is
threaded through the calls and returned next to the value.  The first argument
bounds the recursion depth; `none` is returned when the depth is exhausted,
when the table is accessed out of bounds, or when `s[i]` / `t[j]` is read past
the end of the string. -/
def dist {α : Type} [DecidableEq α] (s t : List α) (ls lt : Nat) :
    Nat → List Int → Nat → Nat → Option (Int × List Int)
  | 0, _, _, _ => none
  | fuel + 1, d, i, j =>
    match d[i * (lt + 1) + j]? with
    | none => none
    | some v =>
      if v ≥ 0 then some (v, d)
      else if i = ls then dist_store d (i * (lt + 1) + j) ((lt : Int) - (j : Int))
      else if j = lt then dist_store d (i * (lt + 1) + j) ((ls : Int) - (i : Int))
      else
        match s[i]?, t[j]? with
        | some a, some b =>
          if a = b then
            match dist s t ls lt fuel d (i + 1) (j + 1) with
            | none => none
            | some (x, d1) => dist_store d1 (i * (lt + 1) + j) x
          else
            match dist s t ls lt fuel d (i + 1) (j + 1) with
            | none => none
            | some (x, d1) =>
              match dist s t ls lt fuel d1 i (j + 1) with
              | none => none
              | some (y, d2) =>
                let x1 := if y < x then y else x
                match dist s t ls lt fuel d2 (i + 1) j with
                | none => none
                | some (y1, d3) =>
                  let x2 := if y1 < x1 then y1 else x1
                  dist_store d3 (i * (lt + 1) + j) (x2 + 1)
        | _, _ => none

/-- The C function `levenshtein ( s, t )`: a table of `(ls+1)*(lt+1)` cells
initialised to `-1`, then `dist` from `(0, 0)`.  Every call of `dist` moves
`i` or `j` forward, so `ls + lt + 1` bounds the depth. -/
def levenshtein {α : Type} [DecidableEq α] (s t : List α) : Option Int :=
  let ls := s.length
  let lt := t.length
  let array_length := (ls + 1) * (lt + 1)
  let d : List Int := List.replicate array_length (-1)
  (dist s t ls lt (ls + lt + 1) d 0 0).map Prod.fst

/-- A compiled match token (`GRegex *`): the pattern text and whether it is
matched case sensitively. -/
structure GRegex where
  pattern : List Char
  case_sensitive : Bool

/-- The callbacks of a provider (`Mode *sw`) that the view consumes. -/
structure Mode where
  /-- Number of entries the provider offers. -/
  _get_num_entries : Nat
  /-- Whether entry `index` matches the token list. -/
  _token_match : List GRegex → Nat → Bool
  /-- Completion string of entry `index`. -/
  _get_completion : Nat → List Char
  /-- Query rewrite applied before tokenizing. -/
  _preprocess_input : List Char → List Char

def mode_get_num_entries (sw : Mode) : Nat := sw._get_num_entries

def mode_token_match (sw : Mode) (tokens : List GRegex) (index : Nat) : Bool :=
  sw._token_match tokens index

def mode_get_completion (sw : Mode) (index : Nat) : List Char :=
  sw._get_completion index

def mode_preprocess_input (sw : Mode) (input : List Char) : List Char :=
  sw._preprocess_input input

/-- The fields of the global `config` read by the modelled functions. -/
structure Config where
  levenshtein_sort : Bool
  case_sensitive : Bool
  auto_select : Bool
  cycle : Bool
  fixed_num_lines : Bool
  menu_lines : Nat
  menu_columns : Nat
  scroll_method : Nat

/-- Return states of the menu that the modelled code assigns. -/
inductive MenuReturn where
  | MENU_OK
  | MENU_CANCEL
  | MENU_NEXT
  | MENU_CUSTOM_INPUT
  | MENU_ENTRY_DELETE
  | MENU_PREVIOUS
  deriving DecidableEq

/-- The key binding actions whose handling is modelled. -/
inductive KeyBindingAction where
  | MODE_PREVIOUS
  | MODE_NEXT
  | DELETE_ENTRY
  | CANCEL
  | ROW_UP
  | ROW_DOWN
  | ROW_LEFT
  | ROW_RIGHT
  | PAGE_PREV
  | PAGE_NEXT
  | ROW_FIRST
  | ROW_LAST
  | ACCEPT_CUSTOM
  | ACCEPT_ENTRY
  | NUM_ABE
  deriving DecidableEq

/-- The largest `unsigned int`, `UINT32_MAX`. -/
def UINT32_MAX : Nat := 4294967295

/-- The algorithmic fields of `struct RofiViewState`; widgets and window
geometry are left out.  `text` stands for `state->text->text`. -/
structure RofiViewState where
  sw : Mode
  menu_lines : Nat
  max_elements : Nat
  max_rows : Nat
  columns : Nat
  update : Bool
  refilter : Bool
  rchanged : Bool
  cur_page : Nat
  text : List Char
  distance : Nat → Int
  line_map : Nat → Nat
  num_lines : Nat
  selected : Nat
  filtered_lines : Nat
  last_offset : Nat
  quit : Bool
  selected_line : Nat
  retv : MenuReturn
  reload : Bool

/-- The entries `a[0], ..., a[n-1]` of an array, as a list. -/
def array_upto {β : Type} (a : Nat → β) (n : Nat) : List β :=
  (List.range n).map a

/-- The assignment `a[idx] = v`. -/
def array_set {β : Type} (a : Nat → β) (idx : Nat) (v : β) : Nat → β :=
  fun k => if k = idx then v else a k

/-! ## Filtering (`source/view.c`) -/

/-- The comparator `lev_sort ( p1, p2, arg )`: `a` and `b` are the entry
indices the two pointers refer to. -/
def lev_sort (distances : Nat → Int) (a b : Nat) : Int :=
  distances a - distances b

/-- The per-partition record `thread_state` (the shared pointers `state`,
`tokens`, `cond`, `mutex`, `acount` are passed separately or left out). -/
structure thread_state where
  start : Nat
  stop : Nat
  count : Nat
  deriving DecidableEq

/-- One iteration of the loop of `filter_elements` for index `i`. -/
def filter_elements_body (config : Config) (tokens : List GRegex) (i : Nat)
    (t : thread_state) (state : RofiViewState) : thread_state × RofiViewState :=
  let mtch := mode_token_match state.sw tokens i
  if mtch then
    let state1 := { state with line_map := array_set state.line_map (t.start + t.count) i }
    let state2 :=
      if config.levenshtein_sort then
        let str := mode_get_completion state1.sw i
        let input := mode_preprocess_input state1.sw state1.text
        { state1 with
          distance := array_set state1.distance i ((levenshtein input str).getD 0) }
      else state1
    ({ t with count := t.count + 1 }, state2)
  else (t, state)

/-- The loop `for ( i = ...; i < t->stop; i++ )` of `filter_elements` with
`k` iterations left, the next one for index `i`. -/
def filter_elements_loop (config : Config) (tokens : List GRegex) :
    Nat → Nat → thread_state → RofiViewState → thread_state × RofiViewState
  | 0, _, t, state => (t, state)
  | k + 1, i, t, state =>
    let r := filter_elements_body config tokens i t state
    filter_elements_loop config tokens k (i + 1) r.1 r.2

/-- The C function `filter_elements ( t, user_data )`: the loop runs from
`t->start` while `i < t->stop`. -/
def filter_elements (config : Config) (tokens : List GRegex)
    (t : thread_state) (state : RofiViewState) : thread_state × RofiViewState :=
  filter_elements_loop config tokens (t.stop - t.start) t.start t state

/-- The set-up loop of `rofi_view_refilter`: partition `i` covers
`[i * steps, MIN ( num_lines, ( i + 1 ) * steps ))` and starts with count 0. -/
def refilter_states (num_lines nt steps : Nat) : List thread_state :=
  (List.range nt).map fun i =>
    { start := i * steps, stop := min num_lines ((i + 1) * steps), count := 0 }

/-- Running all partitions.  The partitions write disjoint cells, so the
worker threads are run one after the other, partition 0 first. -/
def run_threads (config : Config) (tokens : List GRegex) :
    List thread_state → RofiViewState → List thread_state × RofiViewState
  | [], state => ([], state)
  | t :: ts, state =>
    let r := filter_elements config tokens t state
    let rs := run_threads config tokens ts r.2
    (r.1 :: rs.1, rs.2)

/-- The library call `memmove ( &a[dst], &a[src], n cells )`. -/
def memmove (a : Nat → Nat) (dst src n : Nat) : Nat → Nat :=
  fun p => if dst ≤ p ∧ p < dst + n then a (src + (p - dst)) else a p

/-- The compaction loop of `rofi_view_refilter`; returns `j` and the line map. -/
def merge_threads : List thread_state → Nat → (Nat → Nat) → Nat × (Nat → Nat)
  | [], j, line_map => (j, line_map)
  | t :: ts, j, line_map =>
    let line_map1 := if j ≠ t.start then memmove line_map j t.start t.count else line_map
    merge_threads ts (j + t.count) line_map1

/-- Insertion of one element in front of the first element it does not
compare greater than. -/
def qsort_insert (cmp : Nat → Nat → Int) (a : Nat) : List Nat → List Nat
  | [] => [a]
  | b :: l => if cmp a b ≤ 0 then a :: b :: l else b :: qsort_insert cmp a l

/-- The glib call `g_qsort_with_data` on a list of cells: a stable sort
(glib documents it as stable), here insertion sort driven by `cmp`. -/
def g_qsort_with_data (l : List Nat) (cmp : Nat → Nat → Int) : List Nat :=
  l.foldr (qsort_insert cmp) []

/-- Writing a sorted run back into the first cells of an array. -/
def array_write_front (a : Nat → Nat) (l : List Nat) : Nat → Nat :=
  fun p => if p < l.length then l.getD p 0 else a p

/-- The C function `_rofi_view_reload_row`. -/
def _rofi_view_reload_row (state : RofiViewState) : RofiViewState :=
  { state with
    num_lines := mode_get_num_entries state.sw
    line_map := fun _ => 0
    distance := fun _ => 0 }

/-- The body of `rofi_view_refilter` after the reload check, with the number
of partitions `nt` as a parameter (the source uses
`MAX ( 1, num_lines / 500 )`, so `nt` is never 0 there).  `tokenize` is the
helper of that name.  The closing resize of the window is not modelled: it
writes `height`, `x`, `y` and, through `rofi_view_resize`, `max_rows`,
`menu_lines` and `max_elements`, none of which the filter pass reads. -/
def rofi_view_refilter_nt (nt : Nat) (config : Config)
    (tokenize : List Char → Bool → List GRegex) (state : RofiViewState) : RofiViewState :=
  let state1 :=
    if state.text.length > 0 then
      let input := mode_preprocess_input state.sw state.text
      let tokens := tokenize input config.case_sensitive
      let steps := (state.num_lines + nt) / nt
      let states := refilter_states state.num_lines nt steps
      let r := run_threads config tokens states state
      let m := merge_threads r.1 0 r.2.line_map
      let j := m.1
      let line_map1 :=
        if config.levenshtein_sort then
          array_write_front m.2
            (g_qsort_with_data (array_upto m.2 j) (lev_sort r.2.distance))
        else m.2
      { r.2 with line_map := line_map1, filtered_lines := j }
    else
      { state with
        line_map := fun i => if i < state.num_lines then i else state.line_map i
        filtered_lines := state.num_lines }
  let state2 :=
    if state1.filtered_lines > 0 then
      { state1 with selected := min state1.selected (state1.filtered_lines - 1) }
    else { state1 with selected := 0 }
  let state3 :=
    if config.auto_select = true ∧ state2.filtered_lines = 1 ∧ state2.num_lines > 1 then
      { state2 with
        selected_line := state2.line_map state2.selected
        retv := MenuReturn.MENU_OK
        quit := true }
    else state2
  { state3 with refilter := false, rchanged := true, update := true }

/-- The C function `rofi_view_refilter`. -/
def rofi_view_refilter (config : Config)
    (tokenize : List Char → Bool → List GRegex) (state : RofiViewState) : RofiViewState :=
  let state0 :=
    if state.reload then { _rofi_view_reload_row state with reload := false } else state
  let nt := max 1 (state0.num_lines / 500)
  rofi_view_refilter_nt nt config tokenize state0

/-! ## Navigation (`source/view.c`) -/

/-- Addition of two `unsigned int` values. -/
def u32_add (a b : Nat) : Nat := (a + b) % 4294967296

/-- Subtraction of two `unsigned int` values. -/
def u32_sub (a b : Nat) : Nat := (a + (4294967296 - b % 4294967296)) % 4294967296

/-- The C function `rofi_view_nav_page_next`. -/
def rofi_view_nav_page_next (state : RofiViewState) : RofiViewState :=
  if state.filtered_lines = 0 then state
  else
    let state1 := { state with selected := u32_add state.selected state.max_elements }
    let state2 :=
      if state1.selected ≥ state1.filtered_lines then
        { state1 with selected := u32_sub state1.filtered_lines 1 }
      else state1
    { state2 with update := true }

/-- The C function `rofi_view_nav_page_prev`. -/
def rofi_view_nav_page_prev (state : RofiViewState) : RofiViewState :=
  let state1 :=
    if state.selected < state.max_elements then { state with selected := 0 }
    else { state with selected := u32_sub state.selected state.max_elements }
  { state1 with update := true }

/-- The C function `rofi_view_nav_right`; `none` stands for the division by
zero that `selected / max_rows` would be with `max_rows = 0`. -/
def rofi_view_nav_right (state : RofiViewState) : Option RofiViewState :=
  if state.filtered_lines = 0 then some state
  else if u32_add state.selected state.max_rows < state.filtered_lines then
    some { state with selected := u32_add state.selected state.max_rows, update := true }
  else if state.selected < u32_sub state.filtered_lines 1 then
    if state.max_rows = 0 then none
    else
      let col := state.selected / state.max_rows
      let ncol := state.filtered_lines / state.max_rows
      if col ≠ ncol then
        some { state with selected := u32_sub state.filtered_lines 1, update := true }
      else some state
  else some state

/-- The C function `rofi_view_nav_left`. -/
def rofi_view_nav_left (state : RofiViewState) : RofiViewState :=
  if state.selected ≥ state.max_rows then
    { state with selected := u32_sub state.selected state.max_rows, update := true }
  else state

/-- The C function `rofi_view_nav_up`. -/
def rofi_view_nav_up (config : Config) (state : RofiViewState) : RofiViewState :=
  if state.filtered_lines = 0 ∨ (state.selected = 0 ∧ config.cycle = false) then state
  else
    let state1 :=
      if state.selected = 0 then { state with selected := state.filtered_lines } else state
    { state1 with selected := u32_sub state1.selected 1, update := true }

/-- The C function `rofi_view_nav_down`. -/
def rofi_view_nav_down (config : Config) (state : RofiViewState) : RofiViewState :=
  if state.filtered_lines = 0 ∨
      (state.selected = u32_sub state.filtered_lines 1 ∧ config.cycle = false) then state
  else
    { state with
      selected :=
        if state.selected < u32_sub state.filtered_lines 1 then
          min (u32_sub state.filtered_lines 1) (u32_add state.selected 1)
        else 0
      update := true }

/-- The C function `rofi_view_nav_first`. -/
def rofi_view_nav_first (state : RofiViewState) : RofiViewState :=
  { state with selected := 0, update := true }

/-- The C function `rofi_view_nav_last`. -/
def rofi_view_nav_last (state : RofiViewState) : RofiViewState :=
  if state.filtered_lines = 0 then state
  else { state with selected := u32_sub state.filtered_lines 1, update := true }

/-- The C function `rofi_view_trigger_action`, for the actions listed in
`KeyBindingAction`; the second component is the returned flag. -/
def rofi_view_trigger_action (config : Config) (state : RofiViewState) :
    KeyBindingAction → Option (RofiViewState × Bool)
  | .MODE_PREVIOUS =>
    some ({ state with retv := .MENU_PREVIOUS, selected_line := 0, quit := true }, true)
  | .MODE_NEXT =>
    some ({ state with retv := .MENU_NEXT, selected_line := 0, quit := true }, true)
  | .DELETE_ENTRY =>
    if state.selected < state.filtered_lines then
      some ({ state with
        selected_line := state.line_map state.selected
        retv := .MENU_ENTRY_DELETE
        quit := true }, true)
    else some (state, false)
  | .CANCEL => some ({ state with retv := .MENU_CANCEL, quit := true }, true)
  | .ROW_UP => some (rofi_view_nav_up config state, true)
  | .ROW_DOWN => some (rofi_view_nav_down config state, true)
  | .ROW_LEFT => some (rofi_view_nav_left state, true)
  | .ROW_RIGHT => (rofi_view_nav_right state).map fun s => (s, true)
  | .PAGE_PREV => some (rofi_view_nav_page_prev state, true)
  | .PAGE_NEXT => some (rofi_view_nav_page_next state, true)
  | .ROW_FIRST => some (rofi_view_nav_first state, true)
  | .ROW_LAST => some (rofi_view_nav_last state, true)
  | .ACCEPT_CUSTOM =>
    some ({ state with
      selected_line := UINT32_MAX
      retv := .MENU_CUSTOM_INPUT
      quit := true }, true)
  | .ACCEPT_ENTRY =>
    let state1 := { state with selected_line := UINT32_MAX }
    let state2 :=
      if state1.selected < state1.filtered_lines then
        { state1 with
          selected_line := state1.line_map state1.selected
          retv := .MENU_OK }
      else { state1 with retv := .MENU_CUSTOM_INPUT }
    some ({ state2 with quit := true }, true)
  | .NUM_ABE => some (state, false)

/-! ## Scrolling and grid geometry (`source/view.c`, `source/rofi.c`) -/

/-- Multiplication of two `unsigned int` values. -/
def u32_mul (a b : Nat) : Nat := (a * b) % 4294967296

/-- The C function `rofi_scroll_per_page`: the returned offset and the
updated state (the scrollbar handle is left out). -/
def rofi_scroll_per_page (state : RofiViewState) : Nat × RofiViewState :=
  if u32_sub state.selected state.last_offset < state.max_elements ∧
      state.selected ≥ state.last_offset then
    (state.last_offset, state)
  else
    let page := if state.max_elements > 0 then state.selected / state.max_elements else 0
    let offset := u32_mul page state.max_elements
    let state1 := { state with last_offset := offset }
    let state2 :=
      if page ≠ state1.cur_page then { state1 with cur_page := page, rchanged := true }
      else state1
    (offset, state2)

/-- The centring row `middle` of `rofi_scroll_continious`:
`( menu_lines - ( ( menu_lines & 1 ) == 0 ) ) / 2`. -/
def scroll_middle (menu_lines : Nat) : Nat :=
  u32_sub menu_lines (if menu_lines % 2 = 0 then 1 else 0) / 2

/-- The C function `rofi_scroll_continious`: the returned offset and the
updated state (the scrollbar handle is left out). -/
def rofi_scroll_continious (state : RofiViewState) : Nat × RofiViewState :=
  let middle := scroll_middle state.menu_lines
  let offset :=
    if state.selected > middle then
      if state.selected
          < u32_sub state.filtered_lines (u32_sub state.menu_lines middle) then
        u32_sub state.selected middle
      else if state.filtered_lines > state.menu_lines then
        u32_sub state.filtered_lines state.menu_lines
      else 0
    else 0
  let state1 :=
    if offset ≠ state.cur_page then { state with rchanged := true, cur_page := offset }
    else state
  (offset, state1)

/-- The closing `// Sanitize.` step of the fixed-rows branch. -/
def sanitize_columns (state : RofiViewState) : RofiViewState :=
  if state.columns = 0 then { state with columns := 1 } else state

/-- The C function `rofi_view_calculate_rows_columns`; `none` stands for a
division or modulo by zero.  The product `menu_lines * columns` and the sum
of `num_lines` and its padding are `unsigned int` operations and wrap; the
difference `columns - num_lines % columns` cannot wrap, a remainder being
below its divisor. -/
def rofi_view_calculate_rows_columns (config : Config) (state : RofiViewState) :
    Option RofiViewState :=
  let state1 := { state with columns := config.menu_columns }
  let state2 :=
    { state1 with
      max_elements := min (u32_mul state1.menu_lines state1.columns) state1.num_lines }
  if state2.columns = 0 then none
  else
    let state3 :=
      { state2 with
        max_rows := min state2.menu_lines
          (u32_add state2.num_lines
            ((state2.columns - state2.num_lines % state2.columns) % state2.columns)
            / state2.columns) }
    let state4 := { state3 with max_rows := max 0 state3.max_rows }
    if config.fixed_num_lines = true then
      let state5 :=
        { state4 with
          max_elements := u32_mul state4.menu_lines state4.columns
          max_rows := state4.menu_lines }
      if state5.num_lines < state5.max_elements then
        if state5.max_rows = 0 then none
        else
          let state6 :=
            { state5 with
              columns := u32_add state5.num_lines
                ((state5.max_rows - state5.num_lines % state5.max_rows) % state5.max_rows)
                / state5.max_rows }
          let state7 := { state6 with columns := max 1 state6.columns }
          let state8 :=
            { state7 with max_elements := u32_mul state7.menu_lines state7.columns }
          some (sanitize_columns state8)
      else some (sanitize_columns state5)
    else some state4

/-- The fields of `MenuState` (`source/rofi.c`) used by
`menu_calculate_rows_columns`. -/
structure MenuState where
  menu_lines : Nat
  max_elements : Nat
  max_rows : Nat
  columns : Nat
  num_lines : Nat

/-- The C function `menu_calculate_rows_columns` of `source/rofi.c`, the
earlier form of the grid calculation; `none` stands for a division or modulo
by zero.  Products and sums are `unsigned int` operations and wrap. -/
def menu_calculate_rows_columns (config : Config) (state : MenuState) : Option MenuState :=
  let state1 := { state with columns := config.menu_columns }
  let state2 :=
    { state1 with
      max_elements := min (u32_mul state1.menu_lines state1.columns) state1.num_lines }
  if state2.columns = 0 then none
  else
    let state3 :=
      { state2 with
        max_rows := min state2.menu_lines
          (u32_add state2.num_lines
            ((state2.columns - state2.num_lines % state2.columns) % state2.columns)
            / state2.columns) }
    let state4 := { state3 with max_rows := max 1 state3.max_rows }
    if config.fixed_num_lines = true then
      let state5 :=
        { state4 with
          max_elements := u32_mul state4.menu_lines state4.columns
          max_rows := state4.menu_lines }
      let state6 :=
        if state5.num_lines < state5.max_elements then
          if state5.max_rows = 0 then none
          else
            let state5a :=
              { state5 with
                columns := u32_add state5.num_lines
                  ((state5.max_rows - state5.num_lines % state5.max_rows) % state5.max_rows)
                  / state5.max_rows }
            some { state5a with max_elements := u32_mul state5a.menu_lines state5a.columns }
        else some state5
      state6.map fun st => if st.columns = 0 then { st with columns := 1 } else st
    else some state4

/-! ## Combined provider (`source/dialogs/combi.c`) -/

/-- The record `CombiMode`: a sub-provider and its disable flag. -/
structure CombiMode where
  mode : Mode
  disable : Bool

/-- The record `CombiModePrivateData` (`num_switchers` is the length of
`switchers`). -/
structure CombiModePrivateData where
  cmd_list_length : Nat
  starts : Nat → Nat
  lengths : Nat → Nat
  switchers : List CombiMode

/-- The library call `strchrnul ( s, c )`, as the offset of the returned
pointer: the position of the first `c`, or the length of `s`. -/
def strchrnul (s : List Char) (c : Char) : Nat :=
  (s.takeWhile fun x => x ≠ c).length

/-- The C function `combi_preprocess_input`: the updated private data and the
returned string (`none` is `NULL`).  `mode_get_name` and `utf8_strncmp` are
the helpers of that name; the offset computed by `g_utf8_pointer_to_offset`
is the number of characters in front of `eob`. -/
def combi_preprocess_input (mode_get_name : Mode → List Char)
    (utf8_strncmp : List Char → List Char → Nat → Int)
    (pd : CombiModePrivateData) (input : Option (List Char)) :
    CombiModePrivateData × Option (List Char) :=
  let pd1 := { pd with switchers := pd.switchers.map fun sw => { sw with disable := false } }
  match input with
  | none => (pd1, none)
  | some text =>
    if text.head? = some '!' then
      let eob := strchrnul text ' '
      let bang_len : Int := (eob : Int) - 1
      if bang_len > 0 then
        let pd2 :=
          { pd1 with
            switchers := pd1.switchers.map fun sw =>
              let mode_name := mode_get_name sw.mode
              let mode_name_len := mode_name.length
              if ¬ (bang_len.toNat ≤ mode_name_len ∧
                  utf8_strncmp (text.drop 1) mode_name bang_len.toNat = 0) then
                { sw with disable := true }
              else sw }
        if text.drop eob = [] ∨ text.drop (eob + 1) = [] then (pd2, none)
        else (pd2, some (text.drop (eob + 1)))
      else (pd1, some text)
    else (pd1, some text)

/-- The C function `combi_mode_match`: the first enabled sub-provider whose
range holds `index` decides; `i` is the position of the first element of
`switchers` in the array. -/
def combi_mode_match_loop (starts lengths : Nat → Nat) (tokens : List GRegex) (index : Nat) :
    Nat → List CombiMode → Bool
  | _, [] => false
  | i, sw :: rest =>
    if sw.disable then combi_mode_match_loop starts lengths tokens index (i + 1) rest
    else if index ≥ starts i ∧ index < u32_add (starts i) (lengths i) then
      mode_token_match sw.mode tokens (u32_sub index (starts i))
    else combi_mode_match_loop starts lengths tokens index (i + 1) rest

/-- The C function `combi_mode_match`. -/
def combi_mode_match (pd : CombiModePrivateData) (tokens : List GRegex) (index : Nat) : Bool :=
  combi_mode_match_loop pd.starts pd.lengths tokens index 0 pd.switchers

/-- The loop of `combi_mode_init` that fills `starts`, `lengths` and
`cmd_list_length`; `i` is the position of the first element of the list in
the array of sub-providers. -/
def combi_mode_init_loop : Nat → List CombiMode → CombiModePrivateData → CombiModePrivateData
  | _, [], pd => pd
  | i, sw :: rest, pd =>
    let length := mode_get_num_entries sw.mode
    let pd1 := { pd with starts := array_set pd.starts i pd.cmd_list_length }
    let pd2 := { pd1 with lengths := array_set pd1.lengths i length }
    let pd3 := { pd2 with cmd_list_length := u32_add pd2.cmd_list_length length }
    combi_mode_init_loop (i + 1) rest pd3

/-- The C function `combi_mode_init`: the returned flag and the private
data of the provider afterwards.  `parsed` is the list of sub-providers that
`combi_mode_parse_switchers` collects (each enabled), `mode_init` the function
of that name. -/
def combi_mode_init (mode_init : Mode → Bool) (parsed : List Mode)
    (private_data : Option CombiModePrivateData) : Bool × Option CombiModePrivateData :=
  match private_data with
  | some pd => (true, some pd)
  | none =>
    let pd : CombiModePrivateData :=
      { cmd_list_length := 0
        starts := fun _ => 0
        lengths := fun _ => 0
        switchers := parsed.map fun m => { mode := m, disable := false } }
    if pd.switchers.all fun sw => mode_init sw.mode then
      if pd.cmd_list_length = 0 then
        (true, some (combi_mode_init_loop 0 pd.switchers { pd with cmd_list_length := 0 }))
      else (true, some pd)
    else (false, some pd)

/-! ## Desktop entries (`source/dialogs/drun.c`) -/

/-- The fields of `DRunModeEntry` that matching reads; `none` is `NULL`. -/
structure DRunModeEntry where
  exec : List Char
  name : Option (List Char)
  generic_name : Option (List Char)
  categories : Option (List (List Char))

/-- The inner loop of `drun_token_match` over the categories:
`for ( iter = 0; !test && list[iter]; iter++ ) test = helper_token_match ( .. )`. -/
def drun_match_categories (helper_token_match : List GRegex → List Char → Bool)
    (ftokens : List GRegex) : Bool → List (List Char) → Bool
  | test, [] => test
  | test, c :: rest =>
    if test = false then
      drun_match_categories helper_token_match ftokens (helper_token_match ftokens c) rest
    else test

/-- The body of the token loop of `drun_token_match` for one token: the
value of `test` at its end. -/
def drun_match_token (helper_token_match : List GRegex → List Char → Bool)
    (entry : DRunModeEntry) (token : GRegex) : Bool :=
  let test0 : Bool := false
  let ftokens := [token]
  let test1 : Bool :=
    match entry.name with
    | some name => if helper_token_match ftokens name then true else test0
    | none => test0
  let test2 : Bool :=
    if test1 = false then
      match entry.generic_name with
      | some generic_name => if helper_token_match ftokens generic_name then true else test1
      | none => test1
    else test1
  let test3 : Bool :=
    if test2 = false ∧ helper_token_match ftokens entry.exec = true then true else test2
  if test3 = false then
    match entry.categories with
    | some list => drun_match_categories helper_token_match ftokens test3 list
    | none => test3
  else test3

/-- The token loop of `drun_token_match`:
`for ( j = 0; match && tokens[j] != NULL; j++ )`. -/
def drun_token_loop (helper_token_match : List GRegex → List Char → Bool)
    (entry : DRunModeEntry) : Nat → List GRegex → Nat
  | mtch, [] => mtch
  | mtch, token :: rest =>
    if mtch ≠ 0 then
      let test := drun_match_token helper_token_match entry token
      drun_token_loop helper_token_match entry (if test = false then 0 else mtch) rest
    else mtch

/-- The C function `drun_token_match`; `tokens = none` is the `NULL` token
list, `helper_token_match` the helper of that name. -/
def drun_token_match (helper_token_match : List GRegex → List Char → Bool)
    (entry_list : Nat → DRunModeEntry) (tokens : Option (List GRegex)) (index : Nat) : Nat :=
  let mtch := 1
  match tokens with
  | some toks => drun_token_loop helper_token_match (entry_list index) mtch toks
  | none => mtch

/-! ## List view (`source/widgets/listview.c`) -/

/-- The algorithmic fields of `struct _listview`. -/
structure listview where
  cur_page : Nat
  last_offset : Nat
  selected : Nat
  max_rows : Nat
  max_elements : Nat
  cur_columns : Nat
  req_elements : Nat
  cur_elements : Nat

/-- The C function `listview_set_selected`:
`MAX ( 0, MIN ( selected, req_elements - 1 ) )` on `unsigned int`. -/
def listview_set_selected (lv : listview) (selected : Nat) : listview :=
  { lv with selected := max 0 (min selected (u32_sub lv.req_elements 1)) }

/-- The C function `listview_recompute_elements` (the text boxes are left
out). -/
def listview_recompute_elements (config : Config) (lv : listview) : listview :=
  if lv.max_rows = 0 then lv
  else
    let r :=
      if lv.req_elements < lv.max_elements then
        (lv.req_elements,
          { lv with cur_columns := (lv.req_elements + (lv.max_rows - 1)) / lv.max_rows })
      else (lv.max_elements, { lv with cur_columns := config.menu_columns })
    { r.2 with cur_elements := r.1 }

/-- The C function `listview_set_num_elements`. -/
def listview_set_num_elements (config : Config) (lv : listview) (rows : Nat) : listview :=
  let lv1 := { lv with req_elements := rows }
  let lv2 := listview_set_selected lv1 lv1.selected
  listview_recompute_elements config lv2

/-! ## Next position (`source/view.c`) -/

/-- The C function `rofi_view_get_next_position`. -/
def rofi_view_get_next_position (state : RofiViewState) : Nat :=
  let next_pos := state.selected_line
  if u32_add state.selected 1 < state.num_lines then
    state.line_map (u32_add state.selected 1)
  else next_pos

/-! ## The recursion of `dist` with its calls recorded -/

/-- A provider with six entries `""`, `"a"`, `"aa"`, ... of which those with
an even index match any query. -/
def sample_mode : Mode :=
  { _get_num_entries := 6
    _token_match := fun _ i => i % 2 == 0
    _get_completion := fun i => List.replicate i 'a'
    _preprocess_input := fun x => x }

/-- A configuration without sorting. -/
def sample_config : Config :=
  { levenshtein_sort := false
    case_sensitive := false
    auto_select := false
    cycle := false
    fixed_num_lines := false
    menu_lines := 3
    menu_columns := 1
    scroll_method := 0 }

/-- The same configuration with Levenshtein sorting on. -/
def sample_config_sorted : Config :=
  { sample_config with levenshtein_sort := true }

/-- A tokenizer that yields one token per query. -/
def sample_tokenize : List Char → Bool → List GRegex :=
  fun input cs => [{ pattern := input, case_sensitive := cs }]

/-- A freshly created view on `sample_mode` with the query `"aaa"`, a reload
pending and the cursor on row 7. -/
def sample_state : RofiViewState :=
  { sw := sample_mode
    menu_lines := 3
    max_elements := 3
    max_rows := 3
    columns := 1
    update := false
    refilter := true
    rchanged := false
    cur_page := 0
    text := ['a', 'a', 'a']
    distance := fun _ => 0
    line_map := fun _ => 0
    num_lines := 0
    selected := 7
    filtered_lines := 0
    last_offset := 0
    quit := false
    selected_line := 0
    retv := .MENU_CANCEL
    reload := true }

/-- The sample view after its first filter pass without sorting: entries 0, 2
and 4 are shown and the cursor is on the last of them. -/
def sample_shown : RofiViewState :=
  { sample_state with
    num_lines := 6
    filtered_lines := 3
    selected := 2
    line_map := fun i => 2 * i
    reload := false }

/-- A view in which nothing matches and no row fits the window. -/
def sample_no_match : RofiViewState :=
  { sample_state with
    num_lines := 6
    max_rows := 0
    max_elements := 0
    filtered_lines := 0
    selected := 0
    reload := false }

/-- A view showing `filtered_lines` entries in rows of `max_rows` with the
cursor on `selected`. -/
def grid_state (filtered_lines max_rows selected : Nat) : RofiViewState :=
  { sample_state with
    num_lines := filtered_lines
    filtered_lines := filtered_lines
    max_rows := max_rows
    selected := selected
    reload := false }

/-- A view of `num_lines` entries with `menu_lines` rows configured. -/
def rows_state (num_lines menu_lines : Nat) : RofiViewState :=
  { sample_state with num_lines := num_lines, menu_lines := menu_lines, reload := false }

/-- A configuration with `menu_columns` columns, rows fixed or not. -/
def columns_config (menu_columns : Nat) (fixed_num_lines : Bool) : Config :=
  { sample_config with menu_columns := menu_columns, fixed_num_lines := fixed_num_lines }

/-- A combined provider without sub-providers. -/
def sample_combi : CombiModePrivateData :=
  { cmd_list_length := 0, starts := fun _ => 0, lengths := fun _ => 0, switchers := [] }

/-- A stand-in for `mode_get_name`. -/
def sample_mode_name : Mode → List Char := fun _ => ['r', 'u', 'n']

/-- A stand-in for `utf8_strncmp`: 0 when the first `n` characters agree. -/
def sample_strncmp : List Char → List Char → Nat → Int :=
  fun a b n => if a.take n = b.take n then 0 else 1

/-- A stand-in for `helper_token_match`: every token is an initial segment of
the text. -/
def sample_helper_match : List GRegex → List Char → Bool :=
  fun tokens text => tokens.all fun token => token.pattern.isPrefixOf text

/-- A desktop entry list whose entries all read `Web` / `firefox` with the
category `Network`. -/
def sample_entries : Nat → DRunModeEntry :=
  fun _ =>
    { exec := ['f', 'i', 'r', 'e', 'f', 'o', 'x']
      name := some ['W', 'e', 'b']
      generic_name := none
      categories := some [['N', 'e', 't', 'w', 'o', 'r', 'k']] }

/-- A list view of three rows. -/
def sample_listview : listview :=
  { cur_page := 0
    last_offset := 0
    selected := 5
    max_rows := 3
    max_elements := 3
    cur_columns := 1
    req_elements := 8
    cur_elements := 3 }

/-- The sample view after two filter passes: first with an empty query (all
six entries shown), then with the query `aaa` (entries 0, 2, 4 shown). -/
def sample_refiltered : RofiViewState :=
  rofi_view_refilter sample_config sample_tokenize
    { rofi_view_refilter sample_config sample_tokenize { sample_state with text := [] } with
      text := ['a', 'a', 'a'] }

/-- A provider with `n` entries, each of which matches every query. -/
def sample_mode_sized (n : Nat) : Mode :=
  { _get_num_entries := n
    _token_match := fun _ _ => true
    _get_completion := fun _ => []
    _preprocess_input := fun x => x }

/-! ## Notions used to state the properties -/

/-- The cells `a[lo], ..., a[lo+n-1]` of an array, as a list. -/
def array_slice {β : Type} (a : Nat → β) (lo n : Nat) : List β :=
  (List.range' lo n).map a

/-- The match predicate of one refilter pass: `mode_token_match` on the
tokens of the preprocessed query text, as a function of the entry index. -/
def refilter_match (config : Config) (tokenize : List Char → Bool → List GRegex)
    (state : RofiViewState) : Nat → Bool :=
  fun i => mode_token_match state.sw
    (tokenize (mode_preprocess_input state.sw state.text) config.case_sensitive) i

/-- The value `filter_elements` stores in `distance[i]` for a matching entry. -/
def refilter_distance (state : RofiViewState) : Nat → Int :=
  fun i => (levenshtein (mode_preprocess_input state.sw state.text)
    (mode_get_completion state.sw i)).getD 0

/-- The indices below `n` that match, in ascending order. -/
def matching_indices (mtch : Nat → Bool) (n : Nat) : List Nat :=
  (List.range n).filter mtch

/-- The state `rofi_view_refilter` filters: the reloaded rows when a reload
is pending, the given state otherwise. -/
def reloaded (state : RofiViewState) : RofiViewState :=
  if state.reload then { _rofi_view_reload_row state with reload := false } else state

/-- The matching indices of one partition, in ascending order. -/
def partition_matches (mtch : Nat → Bool) (t : thread_state) : List Nat :=
  (List.range' t.start (t.stop - t.start)).filter mtch

/-- The matches of a list of partitions, concatenated in partition order. -/
def partitions_matches (mtch : Nat → Bool) : List thread_state → List Nat
  | [] => []
  | t :: ts => partition_matches mtch t ++ partitions_matches mtch ts

/-- A query text carries a bang prefix when it starts with `!` and at least
one more character stands in front of its first space (or its end), the case
in which `combi_preprocess_input` strips up to and including that space. -/
def starts_with_bang (text : List Char) : Bool :=
  text.head? == some '!' && decide (2 ≤ strchrnul text ' ')

/-- One token is matched by at least one searchable field of a desktop
entry: its name or generic name (when present), its `exec` line, or one of
its categories. -/
def drun_field_matches (helper_token_match : List GRegex → List Char → Bool)
    (entry : DRunModeEntry) (token : GRegex) : Prop :=
  (∃ name, entry.name = some name ∧ helper_token_match [token] name = true) ∨
  (∃ generic_name, entry.generic_name = some generic_name ∧
    helper_token_match [token] generic_name = true) ∨
  helper_token_match [token] entry.exec = true ∨
  (∃ list c, entry.categories = some list ∧ c ∈ list ∧ helper_token_match [token] c = true)

/-- The partitions lie at or above `lo`, in ascending order, without overlap. -/
def partitions_ordered : Nat → List thread_state → Prop
  | _, [] => True
  | lo, t :: ts => lo ≤ t.start ∧ partitions_ordered (t.start + (t.stop - t.start)) ts

/-! ## Properties of the filter pass -/

theorem filter_elements_body_match (config : Config) (tokens : List GRegex) (i : Nat)
    (t : thread_state) (state : RofiViewState)
    (h : mode_token_match state.sw tokens i = true) :
    filter_elements_body config tokens i t state =
      ({ t with count := t.count + 1 },
        { state with
          line_map := array_set state.line_map (t.start + t.count) i
          distance := if config.levenshtein_sort then
              array_set state.distance i (refilter_distance state i)
            else state.distance }) := by
  unfold filter_elements_body
  simp only [h, if_true]
  cases hs : config.levenshtein_sort <;> simp [refilter_distance]

theorem filter_elements_body_nomatch (config : Config) (tokens : List GRegex) (i : Nat)
    (t : thread_state) (state : RofiViewState)
    (h : mode_token_match state.sw tokens i = false) :
    filter_elements_body config tokens i t state = (t, state) := by
  unfold filter_elements_body
  simp [h]

theorem filter_elements_loop_spec (config : Config) (tokens : List GRegex) :
    ∀ (k i : Nat) (t : thread_state) (state : RofiViewState),
      ∃ (lm : Nat → Nat) (d : Nat → Int),
        filter_elements_loop config tokens k i t state =
          ({ t with count := t.count +
              ((List.range' i k).filter (fun x => mode_token_match state.sw tokens x)).length },
           { state with line_map := lm, distance := d }) ∧
        array_slice lm (t.start + t.count)
            ((List.range' i k).filter (fun x => mode_token_match state.sw tokens x)).length
          = (List.range' i k).filter (fun x => mode_token_match state.sw tokens x) ∧
        (∀ p, p < t.start + t.count ∨ t.start + t.count +
            ((List.range' i k).filter (fun x => mode_token_match state.sw tokens x)).length ≤ p →
          lm p = state.line_map p) ∧
        (∀ p, d p = state.distance p ∨
          (config.levenshtein_sort = true ∧ d p = refilter_distance state p)) ∧
        (∀ p ∈ (List.range' i k).filter (fun x => mode_token_match state.sw tokens x),
          config.levenshtein_sort = true → d p = refilter_distance state p) := by
  intro k
  induction k with
  | zero =>
    intro i t state
    refine ⟨state.line_map, state.distance, ?_, ?_, ?_, ?_, ?_⟩
    · simp [filter_elements_loop]
    · simp [array_slice]
    · intro p _; rfl
    · intro p; exact Or.inl rfl
    · intro p hp; simp at hp
  | succ k ih =>
    intro i t state
    cases hm : mode_token_match state.sw tokens i with
    | false =>
      obtain ⟨lm, d, h1, h2, h3, h4, h5⟩ := ih (i + 1) t state
      have hM : (List.range' i (k + 1)).filter (fun x => mode_token_match state.sw tokens x)
          = (List.range' (i + 1) k).filter (fun x => mode_token_match state.sw tokens x) := by
        rw [List.range'_succ, List.filter_cons_of_neg (by simp [hm])]
      refine ⟨lm, d, ?_, ?_, ?_, ?_, ?_⟩
      · rw [filter_elements_loop, filter_elements_body_nomatch _ _ _ _ _ hm, hM]
        exact h1
      · rw [hM]; exact h2
      · rw [hM]; exact h3
      · exact h4
      · rw [hM]; exact h5
    | true =>
      obtain ⟨lm, d, h1, h2, h3, h4, h5⟩ := ih (i + 1) { t with count := t.count + 1 }
        { state with
          line_map := array_set state.line_map (t.start + t.count) i
          distance := if config.levenshtein_sort then
              array_set state.distance i (refilter_distance state i)
            else state.distance }
      have hM : (List.range' i (k + 1)).filter (fun x => mode_token_match state.sw tokens x)
          = i :: (List.range' (i + 1) k).filter (fun x => mode_token_match state.sw tokens x) := by
        rw [List.range'_succ, List.filter_cons_of_pos (by simp [hm])]
      simp only at h1 h2 h3 h4 h5
      refine ⟨lm, d, ?_, ?_, ?_, ?_, ?_⟩
      · rw [filter_elements_loop, filter_elements_body_match _ _ _ _ _ hm, hM]
        simp only [h1, List.length_cons]
        congr 2
        omega
      · rw [hM]
        simp only [List.length_cons, array_slice, List.range'_succ, List.map_cons]
        have h2a := h2
        simp only [array_slice] at h2a
        rw [show t.start + t.count + 1 = t.start + (t.count + 1) by omega, h2a,
          h3 _ (Or.inl (by omega))]
        simp only [array_set, if_true]
      · intro p hp
        rw [hM] at hp
        simp only [List.length_cons] at hp
        rw [h3 p (by omega)]
        simp only [array_set]
        rw [if_neg (by omega)]
      · intro p
        rcases h4 p with h | ⟨hs, h⟩
        · cases hs : config.levenshtein_sort
          · left; rw [h]; simp [hs]
          · rw [h]; simp only [hs, if_true, array_set]
            by_cases hp : p = i
            · right; simp [hp]
            · left; simp [hp]
        · right; exact ⟨hs, by rw [h]; rfl⟩
      · intro p hp hs
        rw [hM] at hp
        rcases List.mem_cons.mp hp with rfl | hp
        · rcases h4 p with h | ⟨_, h⟩
          · rw [h]; simp [hs, array_set]
          · rw [h]; rfl
        · rw [h5 p hp hs]; rfl

theorem array_slice_congr {β : Type} (a b : Nat → β) (lo n : Nat)
    (h : ∀ p, lo ≤ p → p < lo + n → a p = b p) : array_slice a lo n = array_slice b lo n := by
  unfold array_slice
  apply List.map_congr_left
  intro p hp
  rw [List.mem_range'_1] at hp
  exact h p hp.1 hp.2

theorem partition_matches_length_le (mtch : Nat → Bool) (t : thread_state) :
    (partition_matches mtch t).length ≤ t.stop - t.start := by
  unfold partition_matches
  calc ((List.range' t.start (t.stop - t.start)).filter mtch).length
      ≤ (List.range' t.start (t.stop - t.start)).length := List.length_filter_le _ _
    _ = t.stop - t.start := List.length_range' _ _ _

theorem partitions_ordered_start_ge :
    ∀ (ts : List thread_state) (lo : Nat), partitions_ordered lo ts →
      ∀ t ∈ ts, lo ≤ t.start
  | [], _, _, t, ht => by simp at ht
  | u :: us, lo, h, t, ht => by
    rcases List.mem_cons.mp ht with rfl | ht
    · exact h.1
    · have := partitions_ordered_start_ge us _ h.2 t ht
      have := h.1
      omega

theorem filter_elements_spec (config : Config) (tokens : List GRegex)
    (t : thread_state) (state : RofiViewState) (hc : t.count = 0) :
    ∃ (lm : Nat → Nat) (d : Nat → Int),
      filter_elements config tokens t state =
        ({ t with count :=
            (partition_matches (fun x => mode_token_match state.sw tokens x) t).length },
         { state with line_map := lm, distance := d }) ∧
      array_slice lm t.start
          (partition_matches (fun x => mode_token_match state.sw tokens x) t).length
        = partition_matches (fun x => mode_token_match state.sw tokens x) t ∧
      (∀ p, p < t.start ∨ t.start + (t.stop - t.start) ≤ p → lm p = state.line_map p) ∧
      (∀ p, d p = state.distance p ∨
        (config.levenshtein_sort = true ∧ d p = refilter_distance state p)) ∧
      (∀ p ∈ partition_matches (fun x => mode_token_match state.sw tokens x) t,
        config.levenshtein_sort = true → d p = refilter_distance state p) := by
  obtain ⟨lm, d, h1, h2, h3, h4, h5⟩ :=
    filter_elements_loop_spec config tokens (t.stop - t.start) t.start t state
  have hlen := partition_matches_length_le (fun x => mode_token_match state.sw tokens x) t
  unfold partition_matches at hlen ⊢
  rw [hc] at h1 h2 h3
  simp only [Nat.add_zero, Nat.zero_add] at h1 h2 h3
  refine ⟨lm, d, ?_, h2, ?_, h4, h5⟩
  · unfold filter_elements
    exact h1
  · intro p hp
    apply h3
    omega

theorem run_threads_spec (config : Config) (tokens : List GRegex) :
    ∀ (ts : List thread_state) (lo : Nat) (state : RofiViewState),
      (∀ t ∈ ts, t.count = 0) → partitions_ordered lo ts →
      ∃ (lm : Nat → Nat) (d : Nat → Int),
        run_threads config tokens ts state =
          (ts.map (fun t => { t with count :=
              (partition_matches (fun x => mode_token_match state.sw tokens x) t).length }),
           { state with line_map := lm, distance := d }) ∧
        (∀ t ∈ ts, array_slice lm t.start
            (partition_matches (fun x => mode_token_match state.sw tokens x) t).length
          = partition_matches (fun x => mode_token_match state.sw tokens x) t) ∧
        (∀ p, p < lo → lm p = state.line_map p) ∧
        (∀ p, d p = state.distance p ∨
          (config.levenshtein_sort = true ∧ d p = refilter_distance state p)) ∧
        (∀ t ∈ ts, ∀ p ∈ partition_matches (fun x => mode_token_match state.sw tokens x) t,
          config.levenshtein_sort = true → d p = refilter_distance state p) := by
  intro ts
  induction ts with
  | nil =>
    intro lo state _ _
    exact ⟨state.line_map, state.distance, by simp [run_threads], by simp, fun _ _ => rfl,
      fun _ => Or.inl rfl, by simp⟩
  | cons t ts ih =>
    intro lo state hc hord
    obtain ⟨lm1, d1, e1, s1, f1, g1, k1⟩ :=
      filter_elements_spec config tokens t state (hc t (List.mem_cons_self _ _))
    obtain ⟨lm, d, e2, s2, f2, g2, k2⟩ :=
      ih (t.start + (t.stop - t.start)) { state with line_map := lm1, distance := d1 }
        (fun u hu => hc u (List.mem_cons_of_mem _ hu)) hord.2
    simp only at e2 s2 f2 g2 k2
    have hlen := partition_matches_length_le (fun x => mode_token_match state.sw tokens x) t
    refine ⟨lm, d, ?_, ?_, ?_, ?_, ?_⟩
    · rw [run_threads, e1]
      simp only [e2, List.map_cons]
    · intro u hu
      rcases List.mem_cons.mp hu with rfl | hu
      · refine Eq.trans (array_slice_congr lm lm1 _ _ ?_) s1
        intro p hp1 hp2
        exact f2 p (by omega)
      · exact s2 u hu
    · intro p hp
      have := hord.1
      rw [f2 p (by omega), f1 p (Or.inl (by omega))]
    · intro p
      rcases g2 p with h | ⟨hs, h⟩
      · rcases g1 p with h' | ⟨hs, h'⟩
        · left; rw [h, h']
        · right; exact ⟨hs, by rw [h, h']⟩
      · right; exact ⟨hs, by rw [h]; rfl⟩
    · intro u hu p hp hs
      rcases List.mem_cons.mp hu with rfl | hu
      · rcases g2 p with h | ⟨_, h⟩
        · rw [h, k1 p hp hs]
        · rw [h]; rfl
      · rw [k2 u hu p hp hs]; rfl

theorem array_upto_eq_slice {β : Type} (a : Nat → β) (n : Nat) :
    array_upto a n = array_slice a 0 n := by
  unfold array_upto array_slice
  rw [List.range_eq_range']

theorem array_slice_append {β : Type} (a : Nat → β) (lo n k : Nat) :
    array_slice a lo (n + k) = array_slice a lo n ++ array_slice a (lo + n) k := by
  unfold array_slice
  rw [← List.map_append, List.range'_append_1, Nat.add_comm k n]

theorem array_slice_length {β : Type} (a : Nat → β) (lo n : Nat) :
    (array_slice a lo n).length = n := by
  simp [array_slice]

theorem array_slice_shift {β : Type} (a b : Nat → β) (lo lo' n : Nat)
    (h : ∀ q, q < n → a (lo + q) = b (lo' + q)) :
    array_slice a lo n = array_slice b lo' n := by
  unfold array_slice
  rw [List.range'_eq_map_range, List.range'_eq_map_range lo', List.map_map, List.map_map]
  apply List.map_congr_left
  intro q hq
  exact h q (List.mem_range.mp hq)

theorem merge_step_slice (lm : Nat → Nat) (j start count : Nat) :
    array_slice (if j ≠ start then memmove lm j start count else lm) 0 (j + count)
      = array_slice lm 0 j ++ array_slice lm start count := by
  rw [array_slice_append, Nat.zero_add]
  congr 1
  · apply array_slice_congr
    intro p _ hp
    by_cases h : j = start
    · simp [h]
    · simp only [ne_eq, h, not_false_eq_true, if_true, memmove]
      rw [if_neg (by omega)]
  · apply array_slice_shift
    intro q hq
    by_cases h : j = start
    · simp [h]
    · simp only [ne_eq, h, not_false_eq_true, if_true, memmove]
      rw [if_pos (by omega), Nat.add_sub_cancel_left]

theorem merge_step_above (lm : Nat → Nat) (j start count p : Nat) (hp : j + count ≤ p) :
    (if j ≠ start then memmove lm j start count else lm) p = lm p := by
  by_cases h : j = start
  · simp [h]
  · simp only [ne_eq, h, not_false_eq_true, if_true, memmove]
    rw [if_neg (by omega)]

theorem merge_threads_spec (mtch : Nat → Bool) :
    ∀ (ts : List thread_state) (lo j : Nat) (lm : Nat → Nat),
      partitions_ordered lo ts → j ≤ lo →
      (∀ t ∈ ts, t.count ≤ t.stop - t.start) →
      (∀ t ∈ ts, array_slice lm t.start t.count = partition_matches mtch t) →
      (merge_threads ts j lm).1 = j + (partitions_matches mtch ts).length ∧
      array_slice (merge_threads ts j lm).2 0 (merge_threads ts j lm).1
        = array_slice lm 0 j ++ partitions_matches mtch ts := by
  intro ts
  induction ts with
  | nil =>
    intro lo j lm _ _ _ _
    simp [merge_threads, partitions_matches]
  | cons t ts ih =>
    intro lo j lm hord hj hcnt hs
    have hst := hord.1
    have hct := hcnt t (List.mem_cons_self _ _)
    have hlen : (partition_matches mtch t).length = t.count := by
      rw [← hs t (List.mem_cons_self _ _), array_slice_length]
    have hrest : ∀ u ∈ ts,
        array_slice (if j ≠ t.start then memmove lm j t.start t.count else lm) u.start u.count
          = partition_matches mtch u := by
      intro u hu
      rw [← hs u (List.mem_cons_of_mem _ hu)]
      apply array_slice_congr
      intro p hp _
      apply merge_step_above
      have := partitions_ordered_start_ge ts _ hord.2 u hu
      omega
    obtain ⟨h1, h2⟩ := ih (t.start + (t.stop - t.start)) (j + t.count)
      (if j ≠ t.start then memmove lm j t.start t.count else lm) hord.2 (by omega)
      (fun u hu => hcnt u (List.mem_cons_of_mem _ hu)) hrest
    simp only [merge_threads, partitions_matches, List.length_append]
    refine ⟨by rw [h1, hlen]; omega, ?_⟩
    rw [h2, merge_step_slice, hs t (List.mem_cons_self _ _), List.append_assoc]

theorem partitions_matches_append (mtch : Nat → Bool) (l₁ l₂ : List thread_state) :
    partitions_matches mtch (l₁ ++ l₂)
      = partitions_matches mtch l₁ ++ partitions_matches mtch l₂ := by
  induction l₁ with
  | nil => simp [partitions_matches]
  | cons t ts ih => simp [partitions_matches, ih]

theorem partitions_matches_counts (mtch : Nat → Bool) (f : thread_state → Nat)
    (ts : List thread_state) :
    partitions_matches mtch (ts.map (fun t => { t with count := f t }))
      = partitions_matches mtch ts := by
  induction ts with
  | nil => rfl
  | cons t ts ih => simp [partitions_matches, ih, partition_matches]

theorem partitions_ordered_counts (f : thread_state → Nat) :
    ∀ (ts : List thread_state) (lo : Nat), partitions_ordered lo ts →
      partitions_ordered lo (ts.map (fun t => { t with count := f t }))
  | [], _, _ => trivial
  | _ :: ts, _, h => ⟨h.1, partitions_ordered_counts f ts _ h.2⟩

theorem steps_cover (n nt : Nat) (h : 1 ≤ nt) : n ≤ nt * ((n + nt) / nt) := by
  have h1 := Nat.div_add_mod (n + nt) nt
  have h2 := Nat.mod_lt (n + nt) (show nt > 0 by omega)
  omega

theorem refilter_states_matches (mtch : Nat → Bool) (n steps : Nat) :
    ∀ k, partitions_matches mtch (refilter_states n k steps)
      = (List.range' 0 (min n (k * steps))).filter mtch := by
  intro k
  induction k with
  | zero => simp [refilter_states, partitions_matches]
  | succ k ih =>
    have e : refilter_states n (k + 1) steps = refilter_states n k steps ++
        [{ start := k * steps, stop := min n ((k + 1) * steps), count := 0 }] := by
      simp [refilter_states, List.range_succ]
    rw [e, partitions_matches_append, ih]
    simp only [partitions_matches, partition_matches, List.append_nil]
    rw [← List.filter_append]
    congr 1
    have hk : (k + 1) * steps = k * steps + steps := Nat.succ_mul k steps
    by_cases hle : k * steps ≤ n
    · rw [Nat.min_eq_right hle]
      have := List.range'_append_1 0 (k * steps) (min n ((k + 1) * steps) - k * steps)
      rw [Nat.zero_add] at this
      rw [this]
      congr 1
      omega
    · rw [show min n ((k + 1) * steps) - k * steps = 0 by omega]
      simp only [List.range'_zero, List.append_nil]
      congr 1
      omega

theorem refilter_states_ordered (n steps : Nat) :
    ∀ (k a lo : Nat), lo ≤ a * steps →
      partitions_ordered lo ((List.range' a k).map fun i =>
        ({ start := i * steps, stop := min n ((i + 1) * steps), count := 0 } : thread_state)) := by
  intro k
  induction k with
  | zero => intro a lo _; trivial
  | succ k ih =>
    intro a lo h
    rw [List.range'_succ, List.map_cons]
    refine ⟨h, ih (a + 1) _ ?_⟩
    have hk : (a + 1) * steps = a * steps + steps := Nat.succ_mul a steps
    simp only
    omega

theorem qsort_insert_perm (cmp : Nat → Nat → Int) (a : Nat) :
    ∀ l : List Nat, (qsort_insert cmp a l).Perm (a :: l)
  | [] => List.Perm.refl _
  | b :: l => by
    unfold qsort_insert
    split
    · exact List.Perm.refl _
    · exact ((qsort_insert_perm cmp a l).cons b).trans (List.Perm.swap a b l)

theorem g_qsort_with_data_perm (cmp : Nat → Nat → Int) :
    ∀ l : List Nat, (g_qsort_with_data l cmp).Perm l
  | [] => List.Perm.refl _
  | a :: l => by
    have ih := g_qsort_with_data_perm cmp l
    unfold g_qsort_with_data at ih ⊢
    rw [List.foldr_cons]
    exact (qsort_insert_perm cmp a _).trans (ih.cons a)

theorem qsort_insert_congr (cmp cmp' : Nat → Nat → Int) (a : Nat) :
    ∀ l : List Nat, (∀ b ∈ l, cmp a b = cmp' a b) →
      qsort_insert cmp a l = qsort_insert cmp' a l
  | [], _ => rfl
  | b :: l, h => by
    unfold qsort_insert
    rw [h b (List.mem_cons_self _ _),
      qsort_insert_congr cmp cmp' a l (fun c hc => h c (List.mem_cons_of_mem _ hc))]

theorem g_qsort_with_data_congr (cmp cmp' : Nat → Nat → Int) :
    ∀ l : List Nat, (∀ a ∈ l, ∀ b ∈ l, cmp a b = cmp' a b) →
      g_qsort_with_data l cmp = g_qsort_with_data l cmp'
  | [], _ => rfl
  | a :: l, h => by
    have ih := g_qsort_with_data_congr cmp cmp' l
      (fun x hx y hy => h x (List.mem_cons_of_mem _ hx) y (List.mem_cons_of_mem _ hy))
    have hp := g_qsort_with_data_perm cmp' l
    unfold g_qsort_with_data at ih hp ⊢
    rw [List.foldr_cons, List.foldr_cons, ih]
    apply qsort_insert_congr
    intro b hb
    exact h a (List.mem_cons_self _ _) b (List.mem_cons_of_mem _ (hp.subset hb))

theorem lev_sort_congr (d d' : Nat → Int) (l : List Nat) (h : ∀ a ∈ l, d a = d' a) :
    g_qsort_with_data l (lev_sort d) = g_qsort_with_data l (lev_sort d') := by
  apply g_qsort_with_data_congr
  intro a ha b hb
  simp only [lev_sort, h a ha, h b hb]

theorem array_write_front_upto (a : Nat → Nat) (l : List Nat) :
    array_upto (array_write_front a l) l.length = l := by
  apply List.ext_getElem
  · simp [array_upto]
  · intro i h1 h2
    simp [array_upto, array_write_front, h2]

theorem mem_matching_indices (mtch : Nat → Bool) (n i : Nat) :
    i ∈ matching_indices mtch n ↔ i < n ∧ mtch i = true := by
  simp [matching_indices]

/-- The filter and merge phases of a refilter pass: the merged run is the
ascending list of matching indices, and every matching entry carries its
freshly computed distance when sorting is on. -/
theorem filter_merge_spec (nt : Nat) (hnt : 1 ≤ nt) (config : Config) (tokens : List GRegex)
    (state : RofiViewState) :
    ∃ (ts : List thread_state) (lm : Nat → Nat) (d : Nat → Int),
      run_threads config tokens
          (refilter_states state.num_lines nt ((state.num_lines + nt) / nt)) state
        = (ts, { state with line_map := lm, distance := d }) ∧
      (merge_threads ts 0 lm).1
        = (matching_indices (fun x => mode_token_match state.sw tokens x) state.num_lines).length ∧
      array_upto (merge_threads ts 0 lm).2 (merge_threads ts 0 lm).1
        = matching_indices (fun x => mode_token_match state.sw tokens x) state.num_lines ∧
      (∀ p, d p = state.distance p ∨
        (config.levenshtein_sort = true ∧ d p = refilter_distance state p)) ∧
      (∀ p ∈ matching_indices (fun x => mode_token_match state.sw tokens x) state.num_lines,
        config.levenshtein_sort = true → d p = refilter_distance state p) := by
  have hord : partitions_ordered 0
      (refilter_states state.num_lines nt ((state.num_lines + nt) / nt)) := by
    unfold refilter_states
    rw [List.range_eq_range']
    exact refilter_states_ordered _ _ nt 0 0 (Nat.zero_le _)
  have hcnt : ∀ t ∈ refilter_states state.num_lines nt ((state.num_lines + nt) / nt),
      t.count = 0 := by
    intro t ht
    simp only [refilter_states, List.mem_map] at ht
    obtain ⟨i, _, rfl⟩ := ht
    rfl
  have hall : partitions_matches (fun x => mode_token_match state.sw tokens x)
      (refilter_states state.num_lines nt ((state.num_lines + nt) / nt))
      = matching_indices (fun x => mode_token_match state.sw tokens x) state.num_lines := by
    rw [refilter_states_matches, Nat.min_eq_left (steps_cover _ _ hnt), matching_indices,
      List.range_eq_range']
  obtain ⟨lm, d, e, s, _, g, k⟩ := run_threads_spec config tokens _ 0 state hcnt hord
  have hm := merge_threads_spec (fun x => mode_token_match state.sw tokens x)
    ((refilter_states state.num_lines nt ((state.num_lines + nt) / nt)).map (fun t =>
      { t with count :=
        (partition_matches (fun x => mode_token_match state.sw tokens x) t).length }))
    0 0 lm (partitions_ordered_counts _ _ _ hord) (Nat.le_refl _)
    (by
      intro t ht
      obtain ⟨u, _, rfl⟩ := List.mem_map.mp ht
      exact partition_matches_length_le _ u)
    (by
      intro t ht
      obtain ⟨u, hu, rfl⟩ := List.mem_map.mp ht
      exact s u hu)
  rw [partitions_matches_counts, hall] at hm
  refine ⟨_, lm, d, e, ?_, ?_, g, ?_⟩
  · rw [hm.1, Nat.zero_add]
  · rw [array_upto_eq_slice, hm.2]
    simp [array_slice]
  · intro p hp hs
    rw [← hall] at hp
    have : ∀ (ts : List thread_state), p ∈ partitions_matches
        (fun x => mode_token_match state.sw tokens x) ts →
        ∃ t ∈ ts, p ∈ partition_matches (fun x => mode_token_match state.sw tokens x) t := by
      intro ts
      induction ts with
      | nil => intro h; simp [partitions_matches] at h
      | cons t ts ih =>
        intro h
        simp only [partitions_matches, List.mem_append] at h
        rcases h with h | h
        · exact ⟨t, List.mem_cons_self _ _, h⟩
        · obtain ⟨u, hu, hpu⟩ := ih h
          exact ⟨u, List.mem_cons_of_mem _ hu, hpu⟩
    obtain ⟨t, ht, hpt⟩ := this _ hp
    exact k t ht p hpt hs

/-- What `rofi_view_refilter_nt` computes for a non-empty query text. -/
theorem rofi_view_refilter_nt_filter (nt : Nat) (hnt : 1 ≤ nt) (config : Config)
    (tokenize : List Char → Bool → List GRegex) (state : RofiViewState)
    (htext : state.text ≠ []) :
    (rofi_view_refilter_nt nt config tokenize state).filtered_lines
      = (matching_indices (refilter_match config tokenize state) state.num_lines).length ∧
    array_upto (rofi_view_refilter_nt nt config tokenize state).line_map
        (rofi_view_refilter_nt nt config tokenize state).filtered_lines
      = (if config.levenshtein_sort then
          g_qsort_with_data (matching_indices (refilter_match config tokenize state)
            state.num_lines) (lev_sort (refilter_distance state))
        else matching_indices (refilter_match config tokenize state) state.num_lines) ∧
    (∀ p ∈ matching_indices (refilter_match config tokenize state) state.num_lines,
      config.levenshtein_sort = true →
        (rofi_view_refilter_nt nt config tokenize state).distance p
          = refilter_distance state p) := by
  have hlen : state.text.length > 0 := List.length_pos.mpr htext
  obtain ⟨ts, lm, d, e, h1, h2, _, h4⟩ := filter_merge_spec nt hnt config
    (tokenize (mode_preprocess_input state.sw state.text) config.case_sensitive) state
  have hM : (fun x => mode_token_match state.sw
      (tokenize (mode_preprocess_input state.sw state.text) config.case_sensitive) x)
      = refilter_match config tokenize state := rfl
  rw [hM] at h1 h2 h4
  have hsorted : g_qsort_with_data
      (matching_indices (refilter_match config tokenize state) state.num_lines) (lev_sort d)
      = g_qsort_with_data
      (matching_indices (refilter_match config tokenize state) state.num_lines)
        (lev_sort (refilter_distance state)) ∨ config.levenshtein_sort = false := by
    cases hs : config.levenshtein_sort
    · right; rfl
    · left
      exact lev_sort_congr _ _ _ (fun a ha => h4 a ha hs)
  cases hs : config.levenshtein_sort
  · simp only [rofi_view_refilter_nt, hlen, if_true, e, hs, Bool.false_eq_true, if_false]
    refine ⟨?_, ?_, ?_⟩
    · split <;> split <;> exact h1
    · split <;> split <;> exact h2
    · intro p _ hf; exact absurd hf (by simp)
  · rcases hsorted with hsorted | hf
    swap
    · rw [hs] at hf; exact absurd hf (by simp)
    simp only [rofi_view_refilter_nt, hlen, if_true, e, hs]
    rw [h2, hsorted]
    have hl : (g_qsort_with_data
        (matching_indices (refilter_match config tokenize state) state.num_lines)
        (lev_sort (refilter_distance state))).length
        = (matching_indices (refilter_match config tokenize state) state.num_lines).length :=
      (g_qsort_with_data_perm _ _).length_eq
    refine ⟨?_, ?_, ?_⟩
    · split <;> split <;> exact h1
    · have hw := array_write_front_upto (merge_threads ts 0 lm).2
        (g_qsort_with_data
          (matching_indices (refilter_match config tokenize state) state.num_lines)
          (lev_sort (refilter_distance state)))
      rw [hl] at hw
      split <;> split <;> (simp only []; rw [h1]; exact hw)
    · intro p hp _
      have := h4 p hp hs
      split <;> split <;> exact this

theorem run_threads_frame (config : Config) (tokens : List GRegex) (nt steps : Nat)
    (state : RofiViewState) :
    ∃ (lm : Nat → Nat) (d : Nat → Int),
      (run_threads config tokens (refilter_states state.num_lines nt steps) state).2
        = { state with line_map := lm, distance := d } := by
  have hord : partitions_ordered 0 (refilter_states state.num_lines nt steps) := by
    unfold refilter_states
    rw [List.range_eq_range']
    exact refilter_states_ordered _ _ nt 0 0 (Nat.zero_le _)
  have hcnt : ∀ t ∈ refilter_states state.num_lines nt steps, t.count = 0 := by
    intro t ht
    simp only [refilter_states, List.mem_map] at ht
    obtain ⟨i, _, rfl⟩ := ht
    rfl
  obtain ⟨lm, d, e, _⟩ := run_threads_spec config tokens _ 0 state hcnt hord
  exact ⟨lm, d, by rw [e]⟩

/-- Fields a refilter pass leaves alone, and the clamping of the cursor. -/
theorem rofi_view_refilter_nt_frame (nt : Nat) (config : Config)
    (tokenize : List Char → Bool → List GRegex) (state : RofiViewState) :
    (rofi_view_refilter_nt nt config tokenize state).num_lines = state.num_lines ∧
    (rofi_view_refilter_nt nt config tokenize state).sw = state.sw ∧
    (rofi_view_refilter_nt nt config tokenize state).text = state.text ∧
    (rofi_view_refilter_nt nt config tokenize state).reload = state.reload ∧
    (rofi_view_refilter_nt nt config tokenize state).selected
      = (if (rofi_view_refilter_nt nt config tokenize state).filtered_lines > 0 then
          min state.selected ((rofi_view_refilter_nt nt config tokenize state).filtered_lines - 1)
        else 0) := by
  obtain ⟨lm, d, e⟩ := run_threads_frame config
    (tokenize (mode_preprocess_input state.sw state.text) config.case_sensitive) nt
    ((state.num_lines + nt) / nt) state
  unfold rofi_view_refilter_nt
  simp only [e]
  refine ⟨?_, ?_, ?_, ?_, ?_⟩ <;> (repeat' split) <;> simp_all

theorem rofi_view_refilter_nt_empty (nt : Nat) (config : Config)
    (tokenize : List Char → Bool → List GRegex) (state : RofiViewState)
    (htext : state.text = []) :
    (rofi_view_refilter_nt nt config tokenize state).filtered_lines = state.num_lines ∧
    (∀ i, i < state.num_lines → (rofi_view_refilter_nt nt config tokenize state).line_map i = i) ∧
    array_upto (rofi_view_refilter_nt nt config tokenize state).line_map
      (rofi_view_refilter_nt nt config tokenize state).filtered_lines
      = List.range state.num_lines := by
  have h0 : ¬ (state.text.length > 0) := by simp [htext]
  have h1 : (rofi_view_refilter_nt nt config tokenize state).filtered_lines = state.num_lines := by
    unfold rofi_view_refilter_nt
    simp only [h0, if_false]
    (repeat' split) <;> rfl
  have h2 : ∀ i, i < state.num_lines →
      (rofi_view_refilter_nt nt config tokenize state).line_map i = i := by
    intro i hi
    unfold rofi_view_refilter_nt
    simp only [h0, if_false]
    (repeat' split) <;> simp [hi]
  refine ⟨h1, h2, ?_⟩
  rw [h1]
  unfold array_upto
  conv => rhs; rw [← List.map_id (List.range state.num_lines)]
  apply List.map_congr_left
  intro i hi
  rw [h2 i (List.mem_range.mp hi)]
  rfl

theorem reloaded_fields (state : RofiViewState) :
    (reloaded state).sw = state.sw ∧ (reloaded state).text = state.text ∧
    (reloaded state).selected = state.selected ∧ (reloaded state).reload = false ∧
    (reloaded state).num_lines
      = (if state.reload then mode_get_num_entries state.sw else state.num_lines) := by
  unfold reloaded _rofi_view_reload_row
  cases h : state.reload <;> simp [h]

theorem rofi_view_refilter_eq (config : Config)
    (tokenize : List Char → Bool → List GRegex) (state : RofiViewState) :
    rofi_view_refilter config tokenize state
      = rofi_view_refilter_nt (max 1 ((reloaded state).num_lines / 500)) config tokenize
          (reloaded state) := rfl

theorem refilter_match_reloaded (config : Config)
    (tokenize : List Char → Bool → List GRegex) (state : RofiViewState) :
    refilter_match config tokenize (reloaded state) = refilter_match config tokenize state := by
  unfold refilter_match
  rw [(reloaded_fields state).1, (reloaded_fields state).2.1]

theorem refilter_distance_reloaded (state : RofiViewState) :
    refilter_distance (reloaded state) = refilter_distance state := by
  unfold refilter_distance
  rw [(reloaded_fields state).1, (reloaded_fields state).2.1]

/-- What `rofi_view_refilter` computes for a non-empty query text, in terms
of the state it was called on. -/
theorem rofi_view_refilter_filter (config : Config)
    (tokenize : List Char → Bool → List GRegex) (state : RofiViewState)
    (htext : state.text ≠ []) :
    (rofi_view_refilter config tokenize state).filtered_lines
      = (matching_indices (refilter_match config tokenize state)
          (rofi_view_refilter config tokenize state).num_lines).length ∧
    array_upto (rofi_view_refilter config tokenize state).line_map
        (rofi_view_refilter config tokenize state).filtered_lines
      = (if config.levenshtein_sort then
          g_qsort_with_data (matching_indices (refilter_match config tokenize state)
            (rofi_view_refilter config tokenize state).num_lines)
            (lev_sort (refilter_distance state))
        else matching_indices (refilter_match config tokenize state)
          (rofi_view_refilter config tokenize state).num_lines) ∧
    (∀ p ∈ matching_indices (refilter_match config tokenize state)
        (rofi_view_refilter config tokenize state).num_lines,
      config.levenshtein_sort = true →
        (rofi_view_refilter config tokenize state).distance p = refilter_distance state p) := by
  have hf := rofi_view_refilter_nt_frame (max 1 ((reloaded state).num_lines / 500)) config
    tokenize (reloaded state)
  have h := rofi_view_refilter_nt_filter (max 1 ((reloaded state).num_lines / 500))
    (Nat.le_max_left _ _) config tokenize (reloaded state)
    (by rw [(reloaded_fields state).2.1]; exact htext)
  rw [refilter_match_reloaded, refilter_distance_reloaded] at h
  rw [rofi_view_refilter_eq, hf.1]
  exact h

theorem rofi_view_refilter_num_lines (config : Config)
    (tokenize : List Char → Bool → List GRegex) (state : RofiViewState) :
    (rofi_view_refilter config tokenize state).num_lines
      = (if state.reload then mode_get_num_entries state.sw else state.num_lines) := by
  rw [rofi_view_refilter_eq,
    (rofi_view_refilter_nt_frame _ config tokenize (reloaded state)).1,
    (reloaded_fields state).2.2.2.2]

theorem rofi_view_refilter_empty (config : Config)
    (tokenize : List Char → Bool → List GRegex) (state : RofiViewState)
    (htext : state.text = []) :
    (rofi_view_refilter config tokenize state).filtered_lines
      = (rofi_view_refilter config tokenize state).num_lines ∧
    (∀ i, i < (rofi_view_refilter config tokenize state).num_lines →
      (rofi_view_refilter config tokenize state).line_map i = i) ∧
    array_upto (rofi_view_refilter config tokenize state).line_map
      (rofi_view_refilter config tokenize state).filtered_lines
      = List.range (rofi_view_refilter config tokenize state).num_lines := by
  have hf := rofi_view_refilter_nt_frame (max 1 ((reloaded state).num_lines / 500)) config
    tokenize (reloaded state)
  have h := rofi_view_refilter_nt_empty (max 1 ((reloaded state).num_lines / 500)) config
    tokenize (reloaded state) (by rw [(reloaded_fields state).2.1]; exact htext)
  rw [rofi_view_refilter_eq, hf.1]
  exact h

theorem array_upto_getElem {β : Type} (a : Nat → β) (n i : Nat)
    (h : i < (array_upto a n).length) : (array_upto a n)[i] = a i := by
  simp [array_upto]

theorem array_upto_length {β : Type} (a : Nat → β) (n : Nat) :
    (array_upto a n).length = n := by
  simp [array_upto]

theorem array_upto_nodup (a : Nat → Nat) (n : Nat) (h : (array_upto a n).Nodup) :
    ∀ i j, i < j → j < n → a i ≠ a j := by
  intro i j hij hj
  have hp := List.pairwise_iff_getElem.mp h i j
    (by rw [array_upto_length]; omega) (by rw [array_upto_length]; omega) hij
  rwa [array_upto_getElem, array_upto_getElem] at hp

theorem array_upto_mem (a : Nat → Nat) (n i : Nat) (h : i < n) :
    a i ∈ array_upto a n := by
  unfold array_upto
  exact List.mem_map.mpr ⟨i, List.mem_range.mpr h, rfl⟩

/-- After a refilter pass the visible run is a rearrangement of the indices
below `num_lines` selected by some predicate. -/
theorem rofi_view_refilter_perm (config : Config)
    (tokenize : List Char → Bool → List GRegex) (state : RofiViewState) :
    ∃ mtch : Nat → Bool,
      (array_upto (rofi_view_refilter config tokenize state).line_map
        (rofi_view_refilter config tokenize state).filtered_lines).Perm
        (matching_indices mtch (rofi_view_refilter config tokenize state).num_lines) := by
  by_cases htext : state.text = []
  · refine ⟨fun _ => true, ?_⟩
    rw [(rofi_view_refilter_empty config tokenize state htext).2.2]
    simp [matching_indices]
  · refine ⟨refilter_match config tokenize state, ?_⟩
    rw [(rofi_view_refilter_filter config tokenize state htext).2.1]
    split
    · exact g_qsort_with_data_perm _ _
    · exact List.Perm.refl _

/-- C2: after every call of `rofi_view_refilter` (any query, any sort
setting, any `num_lines`), `filtered_lines <= num_lines`, the entries
`line_map[0..filtered_lines)` are pairwise distinct, and each of them is
below `num_lines`. -/
theorem refilter_line_map_distinct_in_range (config : Config)
    (tokenize : List Char → Bool → List GRegex) (state : RofiViewState) :
    (rofi_view_refilter config tokenize state).filtered_lines
      ≤ (rofi_view_refilter config tokenize state).num_lines ∧
    (∀ i j, i < j → j < (rofi_view_refilter config tokenize state).filtered_lines →
      (rofi_view_refilter config tokenize state).line_map i
        ≠ (rofi_view_refilter config tokenize state).line_map j) ∧
    (∀ i, i < (rofi_view_refilter config tokenize state).filtered_lines →
      (rofi_view_refilter config tokenize state).line_map i
        < (rofi_view_refilter config tokenize state).num_lines) := by
  obtain ⟨mtch, hperm⟩ := rofi_view_refilter_perm config tokenize state
  refine ⟨?_, ?_, ?_⟩
  · have hl := hperm.length_eq
    rw [array_upto_length] at hl
    rw [hl, matching_indices]
    calc ((List.range _).filter mtch).length
        ≤ (List.range (rofi_view_refilter config tokenize state).num_lines).length :=
          List.length_filter_le _ _
      _ = _ := List.length_range _
  · apply array_upto_nodup
    rw [hperm.nodup_iff, matching_indices]
    exact (List.nodup_range _).filter _
  · intro i hi
    have hm := hperm.subset (array_upto_mem _ _ i hi)
    exact ((mem_matching_indices _ _ _).mp hm).1

/-- The cursor after a refilter pass. -/
theorem selected_after_refilter (config : Config)
    (tokenize : List Char → Bool → List GRegex) (state : RofiViewState) :
    (rofi_view_refilter config tokenize state).selected
      = min state.selected
          (max (rofi_view_refilter config tokenize state).filtered_lines 1 - 1) := by
  have hf := (rofi_view_refilter_nt_frame (max 1 ((reloaded state).num_lines / 500)) config
    tokenize (reloaded state)).2.2.2.2
  rw [← rofi_view_refilter_eq, (reloaded_fields state).2.2.1] at hf
  rw [hf]
  split <;> omega

/-- C6: when the query text is empty, whatever `num_lines` and the sort
setting, `rofi_view_refilter` sets `line_map[i] = i` for every
`i < num_lines` and `filtered_lines = num_lines`. -/
theorem refilter_empty_query_identity (config : Config)
    (tokenize : List Char → Bool → List GRegex) (state : RofiViewState)
    (htext : state.text = []) :
    (∀ i, i < (rofi_view_refilter config tokenize state).num_lines →
      (rofi_view_refilter config tokenize state).line_map i = i) ∧
    (rofi_view_refilter config tokenize state).filtered_lines
      = (rofi_view_refilter config tokenize state).num_lines ∧
    (rofi_view_refilter config tokenize state).num_lines
      = (if state.reload then mode_get_num_entries state.sw else state.num_lines) := by
  have h := rofi_view_refilter_empty config tokenize state htext
  exact ⟨h.2.1, h.1, rofi_view_refilter_num_lines config tokenize state⟩

/-- Witness of C6: the sample view with its query cleared and sorting on
shows all six entries in order. -/
theorem refilter_empty_query_identity_witness :
    ({ sample_state with text := [] } : RofiViewState).text = [] ∧
    (rofi_view_refilter sample_config_sorted sample_tokenize
        { sample_state with text := [] }).filtered_lines
      = (rofi_view_refilter sample_config_sorted sample_tokenize
        { sample_state with text := [] }).num_lines ∧
    array_upto (rofi_view_refilter sample_config_sorted sample_tokenize
        { sample_state with text := [] }).line_map 6 = [0, 1, 2, 3, 4, 5] :=
  ⟨rfl,
    (refilter_empty_query_identity sample_config_sorted sample_tokenize
      { sample_state with text := [] } rfl).2.1, by decide⟩

/-- C7: after `rofi_view_refilter` the cursor is
`min(selected, max(filtered_lines', 1) - 1)`: unchanged when still below the
new `filtered_lines`, `filtered_lines' - 1` when it was out of range, and 0
when nothing matches. -/
theorem refilter_clamps_selected (config : Config)
    (tokenize : List Char → Bool → List GRegex) (state : RofiViewState) :
    (rofi_view_refilter config tokenize state).selected
      = min state.selected
          (max (rofi_view_refilter config tokenize state).filtered_lines 1 - 1) ∧
    (state.selected < (rofi_view_refilter config tokenize state).filtered_lines →
      (rofi_view_refilter config tokenize state).selected = state.selected) ∧
    (0 < (rofi_view_refilter config tokenize state).filtered_lines →
      (rofi_view_refilter config tokenize state).filtered_lines ≤ state.selected →
      (rofi_view_refilter config tokenize state).selected
        = (rofi_view_refilter config tokenize state).filtered_lines - 1) ∧
    ((rofi_view_refilter config tokenize state).filtered_lines = 0 →
      (rofi_view_refilter config tokenize state).selected = 0) := by
  have hf := (rofi_view_refilter_nt_frame (max 1 ((reloaded state).num_lines / 500)) config
    tokenize (reloaded state)).2.2.2.2
  rw [← rofi_view_refilter_eq, (reloaded_fields state).2.2.1] at hf
  rw [hf]
  refine ⟨?_, ?_, ?_, ?_⟩
  · split <;> omega
  · intro h; rw [if_pos (by omega)]; omega
  · intro h1 h2; rw [if_pos h1]; omega
  · intro h; rw [if_neg (by omega)]

/-- C9: running `rofi_view_refilter` twice in a row on the same query text,
configuration and callbacks is idempotent: the second run leaves `selected`,
`filtered_lines` and `line_map[0..filtered_lines)` as the first run left
them. -/
theorem refilter_idempotent (config : Config)
    (tokenize : List Char → Bool → List GRegex) (state : RofiViewState) :
    (rofi_view_refilter config tokenize
        (rofi_view_refilter config tokenize state)).selected
      = (rofi_view_refilter config tokenize state).selected ∧
    (rofi_view_refilter config tokenize
        (rofi_view_refilter config tokenize state)).filtered_lines
      = (rofi_view_refilter config tokenize state).filtered_lines ∧
    array_upto (rofi_view_refilter config tokenize
        (rofi_view_refilter config tokenize state)).line_map
      (rofi_view_refilter config tokenize
        (rofi_view_refilter config tokenize state)).filtered_lines
      = array_upto (rofi_view_refilter config tokenize state).line_map
        (rofi_view_refilter config tokenize state).filtered_lines := by
  have hf := rofi_view_refilter_nt_frame (max 1 ((reloaded state).num_lines / 500)) config
    tokenize (reloaded state)
  rw [← rofi_view_refilter_eq] at hf
  obtain ⟨hn, hsw, htx, hrl, _⟩ := hf
  rw [(reloaded_fields state).1] at hsw
  rw [(reloaded_fields state).2.1] at htx
  rw [(reloaded_fields state).2.2.2.1] at hrl
  have hn2 : (rofi_view_refilter config tokenize
      (rofi_view_refilter config tokenize state)).num_lines
      = (rofi_view_refilter config tokenize state).num_lines := by
    rw [rofi_view_refilter_num_lines config tokenize (rofi_view_refilter config tokenize state),
      hrl]
    rfl
  have hm : refilter_match config tokenize (rofi_view_refilter config tokenize state)
      = refilter_match config tokenize state := by
    unfold refilter_match; rw [hsw, htx]
  have hd : refilter_distance (rofi_view_refilter config tokenize state)
      = refilter_distance state := by
    unfold refilter_distance; rw [hsw, htx]
  have hfl : (rofi_view_refilter config tokenize
      (rofi_view_refilter config tokenize state)).filtered_lines
      = (rofi_view_refilter config tokenize state).filtered_lines := by
    by_cases htext : state.text = []
    · rw [(rofi_view_refilter_empty config tokenize _ (by rw [htx]; exact htext)).1,
        (rofi_view_refilter_empty config tokenize state htext).1, hn2]
    · rw [(rofi_view_refilter_filter config tokenize _ (by rw [htx]; exact htext)).1,
        (rofi_view_refilter_filter config tokenize state htext).1, hn2, hm]
  refine ⟨?_, hfl, ?_⟩
  · have h1 := (selected_after_refilter config tokenize state)
    have h2 := (selected_after_refilter config tokenize
      (rofi_view_refilter config tokenize state))
    rw [h2, hfl, h1]
    omega
  · by_cases htext : state.text = []
    · rw [(rofi_view_refilter_empty config tokenize _ (by rw [htx]; exact htext)).2.2,
        (rofi_view_refilter_empty config tokenize state htext).2.2, hn2]
    · rw [(rofi_view_refilter_filter config tokenize _ (by rw [htx]; exact htext)).2.1,
        (rofi_view_refilter_filter config tokenize state htext).2.1, hn2, hm, hd]

/-! ## Properties of navigation and accept -/

theorem u32_sub_one_lt (n : Nat) (h : 0 < n) : u32_sub n 1 < n := by
  unfold u32_sub
  omega

theorem u32_sub_le (a b : Nat) (h : b ≤ a) : u32_sub a b ≤ a := by
  unfold u32_sub
  omega

/-- C8: from a view state with `selected < max(filtered_lines, 1)`, whatever
`max_rows`, `max_elements` (0 included) and the cycle setting, each of the
eight navigation functions (with 32-bit unsigned arithmetic) leaves
`filtered_lines` alone and `selected < max(filtered_lines, 1)`;
`rofi_view_nav_right` does so without dividing by zero; and with
`filtered_lines = 0` all of them leave `selected = 0`. -/
theorem nav_keeps_selected_in_range (config : Config) (state : RofiViewState)
    (h : state.selected < max state.filtered_lines 1) :
    ((rofi_view_nav_up config state).selected < max state.filtered_lines 1 ∧
      (rofi_view_nav_up config state).filtered_lines = state.filtered_lines) ∧
    ((rofi_view_nav_down config state).selected < max state.filtered_lines 1 ∧
      (rofi_view_nav_down config state).filtered_lines = state.filtered_lines) ∧
    ((rofi_view_nav_left state).selected < max state.filtered_lines 1 ∧
      (rofi_view_nav_left state).filtered_lines = state.filtered_lines) ∧
    (∃ s, rofi_view_nav_right state = some s ∧
      s.selected < max state.filtered_lines 1 ∧ s.filtered_lines = state.filtered_lines) ∧
    ((rofi_view_nav_page_prev state).selected < max state.filtered_lines 1 ∧
      (rofi_view_nav_page_prev state).filtered_lines = state.filtered_lines) ∧
    ((rofi_view_nav_page_next state).selected < max state.filtered_lines 1 ∧
      (rofi_view_nav_page_next state).filtered_lines = state.filtered_lines) ∧
    ((rofi_view_nav_first state).selected < max state.filtered_lines 1 ∧
      (rofi_view_nav_first state).filtered_lines = state.filtered_lines) ∧
    ((rofi_view_nav_last state).selected < max state.filtered_lines 1 ∧
      (rofi_view_nav_last state).filtered_lines = state.filtered_lines) ∧
    (state.filtered_lines = 0 →
      (rofi_view_nav_up config state).selected = 0 ∧
      (rofi_view_nav_down config state).selected = 0 ∧
      (rofi_view_nav_left state).selected = 0 ∧
      (rofi_view_nav_right state).map RofiViewState.selected = some 0 ∧
      (rofi_view_nav_page_prev state).selected = 0 ∧
      (rofi_view_nav_page_next state).selected = 0 ∧
      (rofi_view_nav_first state).selected = 0 ∧
      (rofi_view_nav_last state).selected = 0) := by
  have hup : (rofi_view_nav_up config state).selected < max state.filtered_lines 1 ∧
      (rofi_view_nav_up config state).filtered_lines = state.filtered_lines := by
    unfold rofi_view_nav_up
    split
    · exact ⟨h, rfl⟩
    · rename_i hc
      simp only [not_or] at hc
      refine ⟨?_, by split <;> rfl⟩
      split
      · have := u32_sub_one_lt state.filtered_lines (by omega)
        simp only
        omega
      · rename_i hs
        have := u32_sub_le state.selected 1 (by omega)
        simp only
        omega
  have hdown : (rofi_view_nav_down config state).selected < max state.filtered_lines 1 ∧
      (rofi_view_nav_down config state).filtered_lines = state.filtered_lines := by
    unfold rofi_view_nav_down
    split
    · exact ⟨h, rfl⟩
    · rename_i hc
      simp only [not_or] at hc
      refine ⟨?_, rfl⟩
      have := u32_sub_one_lt state.filtered_lines (by omega)
      simp only
      split <;> omega
  have hleft : (rofi_view_nav_left state).selected < max state.filtered_lines 1 ∧
      (rofi_view_nav_left state).filtered_lines = state.filtered_lines := by
    unfold rofi_view_nav_left
    split
    · rename_i hc
      have := u32_sub_le state.selected state.max_rows hc
      exact ⟨by simp only; omega, rfl⟩
    · exact ⟨h, rfl⟩
  have hright : ∃ s, rofi_view_nav_right state = some s ∧
      s.selected < max state.filtered_lines 1 ∧ s.filtered_lines = state.filtered_lines := by
    unfold rofi_view_nav_right
    split
    · exact ⟨state, rfl, h, rfl⟩
    · rename_i h0
      split
      · rename_i h1
        exact ⟨_, rfl, by simp only; omega, rfl⟩
      · rename_i h1
        split
        · rename_i h2
          have hz : state.max_rows ≠ 0 := by
            intro hz
            apply h1
            unfold u32_add
            rw [hz]
            omega
          rw [if_neg hz]
          have := u32_sub_one_lt state.filtered_lines (by omega)
          dsimp only
          split
          · exact ⟨_, rfl, by simp only; omega, rfl⟩
          · exact ⟨state, rfl, h, rfl⟩
        · exact ⟨state, rfl, h, rfl⟩
  have hprev : (rofi_view_nav_page_prev state).selected < max state.filtered_lines 1 ∧
      (rofi_view_nav_page_prev state).filtered_lines = state.filtered_lines := by
    unfold rofi_view_nav_page_prev
    split
    · exact ⟨by simp only; omega, rfl⟩
    · rename_i hc
      have := u32_sub_le state.selected state.max_elements (by omega)
      exact ⟨by simp only; omega, rfl⟩
  have hnext : (rofi_view_nav_page_next state).selected < max state.filtered_lines 1 ∧
      (rofi_view_nav_page_next state).filtered_lines = state.filtered_lines := by
    unfold rofi_view_nav_page_next
    split
    · exact ⟨h, rfl⟩
    · rename_i h0
      have := u32_sub_one_lt state.filtered_lines (by omega)
      simp only
      split
      · exact ⟨by simp only; omega, rfl⟩
      · exact ⟨by simp only; omega, rfl⟩
  have hfirst : (rofi_view_nav_first state).selected < max state.filtered_lines 1 ∧
      (rofi_view_nav_first state).filtered_lines = state.filtered_lines := by
    unfold rofi_view_nav_first
    exact ⟨by simp only; omega, rfl⟩
  have hlast : (rofi_view_nav_last state).selected < max state.filtered_lines 1 ∧
      (rofi_view_nav_last state).filtered_lines = state.filtered_lines := by
    unfold rofi_view_nav_last
    split
    · exact ⟨h, rfl⟩
    · have := u32_sub_one_lt state.filtered_lines (by omega)
      exact ⟨by simp only; omega, rfl⟩
  refine ⟨hup, hdown, hleft, hright, hprev, hnext, hfirst, hlast, ?_⟩
  intro hz
  obtain ⟨s, hs, hs1, _⟩ := hright
  refine ⟨?_, ?_, ?_, ?_, ?_, ?_, ?_, ?_⟩
  · have := hup.1; omega
  · have := hdown.1; omega
  · have := hleft.1; omega
  · rw [hs]
    simp only [Option.map_some']
    congr 1
    omega
  · have := hprev.1; omega
  · have := hnext.1; omega
  · have := hfirst.1; omega
  · have := hlast.1; omega

/-- Witness of C8: the sample view with three rows shown and the cursor on
the last one, and the view without any match. -/
theorem nav_keeps_selected_in_range_witness :
    sample_shown.selected < max sample_shown.filtered_lines 1 ∧
    (rofi_view_nav_page_next sample_shown).selected < max sample_shown.filtered_lines 1 ∧
    (rofi_view_nav_up sample_config sample_shown).selected = 1 ∧
    (rofi_view_nav_right sample_shown).map RofiViewState.selected = some 2 :=
  ⟨by decide,
    (nav_keeps_selected_in_range sample_config sample_shown (by decide)).2.2.2.2.2.1.1,
    by decide, by decide⟩

/-- C10: `rofi_view_trigger_action` with `ACCEPT_ENTRY` returns, sets `quit`,
and: when `selected < filtered_lines` it sets `selected_line` to the entry
index `line_map[selected]` and `retv` to `MENU_OK`; otherwise it sets
`selected_line = UINT32_MAX` and `retv = MENU_CUSTOM_INPUT`, whatever the
line map holds. -/
theorem accept_entry_returns_entry_index (config : Config) (state : RofiViewState) :
    (∃ s, rofi_view_trigger_action config state .ACCEPT_ENTRY = some (s, true) ∧
      s.quit = true ∧
      (state.selected < state.filtered_lines →
        s.selected_line = state.line_map state.selected ∧ s.retv = .MENU_OK) ∧
      (¬ state.selected < state.filtered_lines →
        s.selected_line = UINT32_MAX ∧ s.retv = .MENU_CUSTOM_INPUT)) ∧
    (¬ state.selected < state.filtered_lines → ∀ line_map' : Nat → Nat,
      rofi_view_trigger_action config { state with line_map := line_map' } .ACCEPT_ENTRY
        = some ({ state with
            line_map := line_map'
            selected_line := UINT32_MAX
            retv := .MENU_CUSTOM_INPUT
            quit := true }, true)) := by
  refine ⟨⟨_, rfl, ?_, ?_, ?_⟩, ?_⟩
  · split <;> rfl
  · intro h
    simp only [h, if_true, and_self]
  · intro h
    simp only [h, if_false, and_self]
  · intro h line_map'
    simp only [rofi_view_trigger_action, h, if_false]

/-! ## Properties of the edit distance -/

/-- The accept fields after the body of a refilter pass. -/
theorem rofi_view_refilter_nt_accept (nt : Nat) (config : Config)
    (tokenize : List Char → Bool → List GRegex) (state : RofiViewState) :
    ((config.auto_select = true ∧
        (rofi_view_refilter_nt nt config tokenize state).filtered_lines = 1 ∧
        (rofi_view_refilter_nt nt config tokenize state).num_lines > 1) →
      (rofi_view_refilter_nt nt config tokenize state).quit = true ∧
      (rofi_view_refilter_nt nt config tokenize state).retv = MenuReturn.MENU_OK ∧
      (rofi_view_refilter_nt nt config tokenize state).selected_line
        = (rofi_view_refilter_nt nt config tokenize state).line_map
            (rofi_view_refilter_nt nt config tokenize state).selected) ∧
    (¬ (config.auto_select = true ∧
        (rofi_view_refilter_nt nt config tokenize state).filtered_lines = 1 ∧
        (rofi_view_refilter_nt nt config tokenize state).num_lines > 1) →
      (rofi_view_refilter_nt nt config tokenize state).quit = state.quit ∧
      (rofi_view_refilter_nt nt config tokenize state).retv = state.retv ∧
      (rofi_view_refilter_nt nt config tokenize state).selected_line
        = state.selected_line) := by
  obtain ⟨lm, d, e⟩ := run_threads_frame config
    (tokenize (mode_preprocess_input state.sw state.text) config.case_sensitive) nt
    ((state.num_lines + nt) / nt) state
  unfold rofi_view_refilter_nt
  simp only [e]
  refine ⟨?_, ?_⟩ <;> intro h <;> (repeat' split) <;> simp_all

theorem reloaded_accept_fields (state : RofiViewState) :
    (reloaded state).quit = state.quit ∧ (reloaded state).retv = state.retv ∧
    (reloaded state).selected_line = state.selected_line := by
  unfold reloaded _rofi_view_reload_row
  cases h : state.reload <;> simp [h]

/-- C11: `rofi_view_refilter` signals an immediate accept (`quit = TRUE`,
`retv = MENU_OK`, `selected_line` the single matching entry `line_map[0]`)
when `auto_select` is on, `filtered_lines = 1` and `num_lines > 1` after
filtering, and in every other case leaves `quit`, `retv` and `selected_line`
as they were. -/
theorem refilter_auto_select_iff (config : Config)
    (tokenize : List Char → Bool → List GRegex) (state : RofiViewState) :
    ((config.auto_select = true ∧
        (rofi_view_refilter config tokenize state).filtered_lines = 1 ∧
        (rofi_view_refilter config tokenize state).num_lines > 1) →
      (rofi_view_refilter config tokenize state).quit = true ∧
      (rofi_view_refilter config tokenize state).retv = MenuReturn.MENU_OK ∧
      (rofi_view_refilter config tokenize state).selected_line
        = (rofi_view_refilter config tokenize state).line_map 0 ∧
      array_upto (rofi_view_refilter config tokenize state).line_map
          (rofi_view_refilter config tokenize state).filtered_lines
        = [(rofi_view_refilter config tokenize state).selected_line]) ∧
    (¬ (config.auto_select = true ∧
        (rofi_view_refilter config tokenize state).filtered_lines = 1 ∧
        (rofi_view_refilter config tokenize state).num_lines > 1) →
      (rofi_view_refilter config tokenize state).quit = state.quit ∧
      (rofi_view_refilter config tokenize state).retv = state.retv ∧
      (rofi_view_refilter config tokenize state).selected_line = state.selected_line) := by
  have ha := rofi_view_refilter_nt_accept (max 1 ((reloaded state).num_lines / 500)) config
    tokenize (reloaded state)
  rw [← rofi_view_refilter_eq] at ha
  have hr := reloaded_accept_fields state
  have hsel := selected_after_refilter config tokenize state
  refine ⟨?_, ?_⟩
  · intro h
    obtain ⟨hq, hv, hl⟩ := ha.1 h
    have h0 : (rofi_view_refilter config tokenize state).selected = 0 := by
      rw [hsel, h.2.1]; simp
    rw [h0] at hl
    refine ⟨hq, hv, hl, ?_⟩
    rw [h.2.1, hl]
    rfl
  · intro h
    obtain ⟨hq, hv, hl⟩ := ha.2 h
    exact ⟨by rw [hq, hr.1], by rw [hv, hr.2.1], by rw [hl, hr.2.2]⟩

/-! ## Properties of single navigation steps -/

/-- C12: with `filtered_lines >= 1` and `selected < filtered_lines`,
`rofi_view_nav_down` moves the cursor to `selected + 1` below the last entry,
and at the last entry wraps to 0 with cycling on and stays with cycling off;
`rofi_view_nav_up` moves it to `selected - 1` above entry 0, and at entry 0
wraps to `filtered_lines - 1` with cycling on and stays with cycling off. -/
theorem nav_up_down_step (config : Config) (state : RofiViewState)
    (hfl : 1 ≤ state.filtered_lines) (hsel : state.selected < state.filtered_lines)
    (hu : state.filtered_lines < 4294967296) :
    (state.selected < state.filtered_lines - 1 →
      (rofi_view_nav_down config state).selected = state.selected + 1) ∧
    (state.selected = state.filtered_lines - 1 → config.cycle = true →
      (rofi_view_nav_down config state).selected = 0) ∧
    (state.selected = state.filtered_lines - 1 → config.cycle = false →
      (rofi_view_nav_down config state).selected = state.selected) ∧
    (0 < state.selected →
      (rofi_view_nav_up config state).selected = state.selected - 1) ∧
    (state.selected = 0 → config.cycle = true →
      (rofi_view_nav_up config state).selected = state.filtered_lines - 1) ∧
    (state.selected = 0 → config.cycle = false →
      (rofi_view_nav_up config state).selected = state.selected) := by
  have hs1 : u32_sub state.filtered_lines 1 = state.filtered_lines - 1 := by
    unfold u32_sub; omega
  have hs2 : u32_sub state.selected 1 = state.selected - 1 ∨ state.selected = 0 := by
    unfold u32_sub; omega
  refine ⟨?_, ?_, ?_, ?_, ?_, ?_⟩
  · intro h
    unfold rofi_view_nav_down
    rw [hs1, if_neg (by omega)]
    simp only
    rw [if_pos h]
    unfold u32_add
    omega
  · intro h hc
    unfold rofi_view_nav_down
    rw [hs1, if_neg (by simp [hc]; omega)]
    simp only
    rw [if_neg (by omega)]
  · intro h hc
    unfold rofi_view_nav_down
    rw [hs1, if_pos (Or.inr ⟨h, hc⟩)]
  · intro h
    unfold rofi_view_nav_up
    rw [if_neg (by omega)]
    simp only
    rw [if_neg (by omega)]
    rcases hs2 with h2 | h2
    · exact h2
    · omega
  · intro h hc
    unfold rofi_view_nav_up
    rw [if_neg (by simp [hc]; omega)]
    simp only
    rw [if_pos h]
    exact hs1
  · intro h hc
    unfold rofi_view_nav_up
    rw [if_pos (Or.inr ⟨h, hc⟩)]

/-- Witness of C12: the sample view with three rows shown and the cursor on
the last of them. -/
theorem nav_up_down_step_witness :
    1 ≤ sample_shown.filtered_lines ∧ sample_shown.selected < sample_shown.filtered_lines ∧
    sample_shown.filtered_lines < 4294967296 ∧
    (0 < sample_shown.selected →
      (rofi_view_nav_up sample_config sample_shown).selected = sample_shown.selected - 1) ∧
    (rofi_view_nav_up sample_config sample_shown).selected = 1 ∧
    (rofi_view_nav_down sample_config sample_shown).selected = 2 :=
  ⟨by decide, by decide, by decide,
    (nav_up_down_step sample_config sample_shown (by decide) (by decide) (by decide)).2.2.2.1,
    by decide, by decide⟩

theorem div_pred_of_not_dvd (f r : Nat) (hr : 0 < r) (hm : f % r ≠ 0) :
    f / r = (f - 1) / r := by
  have h1 := Nat.div_add_mod f r
  have h2 := Nat.mod_lt f hr
  symm
  apply Nat.div_eq_of_lt_le
  · rw [Nat.mul_comm]; omega
  · rw [Nat.succ_mul, Nat.mul_comm]; omega

theorem div_pred_of_dvd (f r : Nat) (hr : 0 < r) (hf : 0 < f) (hm : f % r = 0) :
    f / r = (f - 1) / r + 1 := by
  have h1 := Nat.div_add_mod f r
  have h2 := Nat.div_add_mod (f - 1) r
  have h3 := Nat.mod_lt (f - 1) hr
  rw [hm] at h1
  have hq : 0 < f / r := by
    rcases Nat.eq_zero_or_pos (f / r) with h | h
    · rw [h] at h1; omega
    · exact h
  have h4 : (f - 1) / r = f / r - 1 := by
    apply Nat.div_eq_of_lt_le
    · have : (f / r - 1) * r + r = f / r * r := by
        rw [← Nat.succ_mul]; congr 1; omega
      rw [Nat.mul_comm r] at h1
      omega
    · rw [Nat.sub_add_cancel hq, Nat.mul_comm]
      omega
  omega

/-- What `rofi_view_nav_right` does when a full column step is possible or
would overshoot, for a grid with at least one row and a cursor in range. -/
theorem rofi_view_nav_right_cases (state : RofiViewState)
    (hr : 1 ≤ state.max_rows) (hsel : state.selected < state.filtered_lines)
    (hu : state.filtered_lines + state.max_rows < 4294967296) :
    (state.selected + state.max_rows < state.filtered_lines →
      (rofi_view_nav_right state).map RofiViewState.selected
        = some (state.selected + state.max_rows)) ∧
    (state.filtered_lines ≤ state.selected + state.max_rows →
      state.selected / state.max_rows ≠ (state.filtered_lines - 1) / state.max_rows →
      (rofi_view_nav_right state).map RofiViewState.selected
        = some (state.filtered_lines - 1)) ∧
    (state.filtered_lines ≤ state.selected + state.max_rows →
      state.selected / state.max_rows = (state.filtered_lines - 1) / state.max_rows →
      state.filtered_lines % state.max_rows ≠ 0 →
      (rofi_view_nav_right state).map RofiViewState.selected = some state.selected) ∧
    (state.filtered_lines ≤ state.selected + state.max_rows →
      state.filtered_lines % state.max_rows = 0 →
      (rofi_view_nav_right state).map RofiViewState.selected
        = some (state.filtered_lines - 1)) := by
  have hadd : u32_add state.selected state.max_rows = state.selected + state.max_rows := by
    unfold u32_add; omega
  have hsub : u32_sub state.filtered_lines 1 = state.filtered_lines - 1 := by
    unfold u32_sub; omega
  have h0 : ¬ state.filtered_lines = 0 := by omega
  have hz : ¬ state.max_rows = 0 := by omega
  have hmono : state.selected / state.max_rows ≤ (state.filtered_lines - 1) / state.max_rows :=
    Nat.div_le_div_right (by omega)
  have hmono' : (state.filtered_lines - 1) / state.max_rows
      ≤ state.filtered_lines / state.max_rows := Nat.div_le_div_right (by omega)
  refine ⟨?_, ?_, ?_, ?_⟩
  · intro h
    unfold rofi_view_nav_right
    rw [if_neg h0, hadd, if_pos h]
    rfl
  · intro h hc
    have hlt : state.selected < state.filtered_lines - 1 := by
      rcases Nat.lt_or_ge state.selected (state.filtered_lines - 1) with h' | h'
      · exact h'
      · exfalso
        apply hc
        have he : state.selected = state.filtered_lines - 1 := by omega
        rw [he]
    unfold rofi_view_nav_right
    rw [if_neg h0, hadd, if_neg (by omega), hsub, if_pos hlt, if_neg hz]
    dsimp only
    rw [if_pos (by omega)]
    rfl
  · intro h hc hm
    have hd := div_pred_of_not_dvd state.filtered_lines state.max_rows (by omega) hm
    unfold rofi_view_nav_right
    rw [if_neg h0, hadd, if_neg (by omega), hsub]
    by_cases hlt : state.selected < state.filtered_lines - 1
    · rw [if_pos hlt, if_neg hz]
      dsimp only
      rw [if_neg (by omega)]
      rfl
    · rw [if_neg hlt]
      rfl
  · intro h hm
    have hd := div_pred_of_dvd state.filtered_lines state.max_rows (by omega) (by omega) hm
    unfold rofi_view_nav_right
    rw [if_neg h0, hadd, if_neg (by omega), hsub]
    by_cases hlt : state.selected < state.filtered_lines - 1
    · rw [if_pos hlt, if_neg hz]
      dsimp only
      rw [if_pos (by omega)]
      rfl
    · rw [if_neg hlt]
      have he : state.selected = state.filtered_lines - 1 := by omega
      simp only [Option.map_some']
      rw [he]

/-- C13: on the grid of 6 entries in rows of 3 with the cursor on entry 3
(row 0 of the last column, which is full) `rofi_view_nav_right` moves the
cursor to entry 5, the last item of the same column, where the claim leaves
it unchanged.  In general the first two cases of the claim hold; a cursor in
the last column stays when `filtered_lines` is not a multiple of `max_rows`,
and is moved to the last item when it is (`ncol` is computed as
`filtered_lines / max_rows`). -/
theorem nav_right_full_last_column_moves :
    (rofi_view_nav_right (grid_state 6 3 3)).map RofiViewState.selected = some 5 ∧
    (grid_state 6 3 3).selected / (grid_state 6 3 3).max_rows
      = ((grid_state 6 3 3).filtered_lines - 1) / (grid_state 6 3 3).max_rows ∧
    (rofi_view_nav_right (grid_state 6 3 3)).map RofiViewState.selected
      ≠ some (grid_state 6 3 3).selected ∧
    (∀ state : RofiViewState, 1 ≤ state.max_rows →
      state.selected < state.filtered_lines →
      state.filtered_lines + state.max_rows < 4294967296 →
      (state.selected + state.max_rows < state.filtered_lines →
        (rofi_view_nav_right state).map RofiViewState.selected
          = some (state.selected + state.max_rows)) ∧
      (state.filtered_lines ≤ state.selected + state.max_rows →
        state.selected / state.max_rows ≠ (state.filtered_lines - 1) / state.max_rows →
        (rofi_view_nav_right state).map RofiViewState.selected
          = some (state.filtered_lines - 1)) ∧
      (state.filtered_lines ≤ state.selected + state.max_rows →
        state.selected / state.max_rows = (state.filtered_lines - 1) / state.max_rows →
        state.filtered_lines % state.max_rows ≠ 0 →
        (rofi_view_nav_right state).map RofiViewState.selected = some state.selected) ∧
      (state.filtered_lines ≤ state.selected + state.max_rows →
        state.filtered_lines % state.max_rows = 0 →
        (rofi_view_nav_right state).map RofiViewState.selected
          = some (state.filtered_lines - 1))) :=
  ⟨by decide, by decide, by decide, fun state h1 h2 h3 => rofi_view_nav_right_cases state h1 h2 h3⟩

/-- C14, as stated, fails: with 10 entries in rows of 3 and the cursor on
entry 0, `rofi_view_nav_right` does not set `selected` to 9. -/
theorem nav_right_scenario_not_last :
    (grid_state 10 3 0).filtered_lines = 10 ∧ (grid_state 10 3 0).max_rows = 3 ∧
    (grid_state 10 3 0).selected = 0 ∧
    ¬ ((rofi_view_nav_right (grid_state 10 3 0)).map RofiViewState.selected = some 9) :=
  ⟨rfl, rfl, rfl, by decide⟩

/-- C14, amended: with `filtered_lines = 10` and `max_rows = 3`,
`rofi_view_nav_right` moves the cursor from entry 0 to entry 3 (one column to
the right); the jump to the last entry 9 happens from entries 7 and 8 (rows 1
and 2 of column 2), where a full column step would overshoot. -/
theorem nav_right_scenario (state : RofiViewState)
    (hfl : state.filtered_lines = 10) (hrows : state.max_rows = 3) :
    (state.selected = 0 →
      (rofi_view_nav_right state).map RofiViewState.selected = some 3) ∧
    (state.selected = 7 ∨ state.selected = 8 →
      (rofi_view_nav_right state).map RofiViewState.selected = some 9) := by
  refine ⟨?_, ?_⟩
  · intro h
    have := (rofi_view_nav_right_cases state (by omega) (by omega) (by omega)).1 (by omega)
    rw [this, h, hrows]
  · intro h
    have := (rofi_view_nav_right_cases state (by omega) (by omega) (by omega)).2.1
      (by omega) (by rw [hfl, hrows]; rcases h with h | h <;> rw [h] <;> decide)
    rw [this, hfl]

/-- Witness of C14 (amended) on the grid of the scenario. -/
theorem nav_right_scenario_witness :
    (grid_state 10 3 0).filtered_lines = 10 ∧ (grid_state 10 3 0).max_rows = 3 ∧
    ((grid_state 10 3 0).selected = 0 →
      (rofi_view_nav_right (grid_state 10 3 0)).map RofiViewState.selected = some 3) ∧
    (rofi_view_nav_right (grid_state 10 3 7)).map RofiViewState.selected = some 9 :=
  ⟨rfl, rfl, (nav_right_scenario (grid_state 10 3 0) rfl rfl).1, by decide⟩

/-! ## Properties of scrolling -/

/-- C15, as stated, fails: on a view with 3 elements per page whose window
still starts at entry 1 (the page size changed after the last scroll) and
the cursor on entry 2, `rofi_scroll_per_page` returns 1, not
`(2 / 3) * 3 = 0`. -/
theorem scroll_per_page_stale_offset :
    (0 < ({ grid_state 10 3 2 with max_elements := 3, last_offset := 1 } :
      RofiViewState).max_elements) ∧
    (rofi_scroll_per_page { grid_state 10 3 2 with max_elements := 3, last_offset := 1 }).1
      = 1 ∧
    ¬ ((rofi_scroll_per_page { grid_state 10 3 2 with max_elements := 3, last_offset := 1 }).1
      = (({ grid_state 10 3 2 with max_elements := 3, last_offset := 1 } :
            RofiViewState).selected
          / ({ grid_state 10 3 2 with max_elements := 3, last_offset := 1 } :
            RofiViewState).max_elements)
        * ({ grid_state 10 3 2 with max_elements := 3, last_offset := 1 } :
            RofiViewState).max_elements) :=
  ⟨by decide, by decide, by decide⟩

/-- C15, amended: with `max_elements > 0`, `rofi_scroll_per_page` returns
`last_offset` while the cursor is still inside the window
`[last_offset, last_offset + max_elements)`, and
`(selected / max_elements) * max_elements` otherwise; the two agree, so the
result is the first index of the cursor's page, whenever `last_offset` is a
multiple of `max_elements`. -/
theorem scroll_per_page_offset (state : RofiViewState)
    (hme : 0 < state.max_elements) (hu : state.selected < 4294967296) :
    (state.last_offset ≤ state.selected ∧
        state.selected < state.last_offset + state.max_elements →
      (rofi_scroll_per_page state).1 = state.last_offset) ∧
    (¬ (state.last_offset ≤ state.selected ∧
        state.selected < state.last_offset + state.max_elements) →
      (rofi_scroll_per_page state).1
        = (state.selected / state.max_elements) * state.max_elements) ∧
    (state.last_offset % state.max_elements = 0 →
      (rofi_scroll_per_page state).1
        = (state.selected / state.max_elements) * state.max_elements) := by
  have hcond : (u32_sub state.selected state.last_offset < state.max_elements ∧
      state.selected ≥ state.last_offset) ↔ (state.last_offset ≤ state.selected ∧
        state.selected < state.last_offset + state.max_elements) := by
    unfold u32_sub
    constructor
    · intro ⟨h1, h2⟩
      refine ⟨h2, ?_⟩
      omega
    · intro ⟨h1, h2⟩
      refine ⟨?_, h1⟩
      omega
  have hle : state.selected / state.max_elements * state.max_elements ≤ state.selected :=
    Nat.div_mul_le_self _ _
  have hin : ∀ h : (state.last_offset ≤ state.selected ∧
      state.selected < state.last_offset + state.max_elements),
      (rofi_scroll_per_page state).1 = state.last_offset := by
    intro h
    unfold rofi_scroll_per_page
    rw [if_pos (hcond.mpr h)]
  have hout : ¬ (state.last_offset ≤ state.selected ∧
      state.selected < state.last_offset + state.max_elements) →
      (rofi_scroll_per_page state).1
        = (state.selected / state.max_elements) * state.max_elements := by
    intro h
    unfold rofi_scroll_per_page
    rw [if_neg (fun hc => h (hcond.mp hc))]
    simp only [hme, if_true]
    unfold u32_mul
    exact Nat.mod_eq_of_lt (by omega)
  refine ⟨hin, hout, ?_⟩
  intro hm
  by_cases h : (state.last_offset ≤ state.selected ∧
      state.selected < state.last_offset + state.max_elements)
  · rw [hin h]
    have h1 := Nat.div_add_mod state.last_offset state.max_elements
    rw [hm, Nat.add_zero] at h1
    have hq : state.selected / state.max_elements = state.last_offset / state.max_elements := by
      apply Nat.div_eq_of_lt_le
      · rw [Nat.mul_comm]; omega
      · rw [Nat.succ_mul, Nat.mul_comm]; omega
    rw [hq, Nat.mul_comm]
    exact h1.symm
  · exact hout h

/-- Witness of C15 (amended): the cursor on entry 7 with pages of 3 and the
window still on the first page. -/
theorem scroll_per_page_offset_witness :
    (0 < ({ grid_state 10 3 7 with max_elements := 3 } : RofiViewState).max_elements) ∧
    ({ grid_state 10 3 7 with max_elements := 3 } : RofiViewState).selected < 4294967296 ∧
    (({ grid_state 10 3 7 with max_elements := 3 } : RofiViewState).last_offset
        % ({ grid_state 10 3 7 with max_elements := 3 } : RofiViewState).max_elements = 0 →
      (rofi_scroll_per_page { grid_state 10 3 7 with max_elements := 3 }).1
        = (({ grid_state 10 3 7 with max_elements := 3 } : RofiViewState).selected
            / ({ grid_state 10 3 7 with max_elements := 3 } : RofiViewState).max_elements)
          * ({ grid_state 10 3 7 with max_elements := 3 } : RofiViewState).max_elements) ∧
    (rofi_scroll_per_page { grid_state 10 3 7 with max_elements := 3 }).1 = 6 :=
  ⟨by decide, by decide,
    (scroll_per_page_offset { grid_state 10 3 7 with max_elements := 3 }
      (by decide) (by decide)).2.2, by decide⟩

theorem scroll_middle_eq (menu_lines : Nat) (h1 : 1 ≤ menu_lines)
    (hu : menu_lines < 4294967296) : scroll_middle menu_lines = (menu_lines - 1) / 2 := by
  unfold scroll_middle u32_sub
  split <;> omega

/-- C16: with `menu_lines >= 1` and `selected < max(filtered_lines, 1)`, the
offset returned by `rofi_scroll_continious` (32-bit unsigned arithmetic)
satisfies `offset <= selected < offset + menu_lines`, is 0 whenever
`filtered_lines <= menu_lines`, and satisfies
`offset + menu_lines <= filtered_lines` whenever
`filtered_lines >= menu_lines`. -/
theorem scroll_continious_window (state : RofiViewState)
    (hml : 1 ≤ state.menu_lines) (hsel : state.selected < max state.filtered_lines 1)
    (hu1 : state.menu_lines < 4294967296) (hu2 : state.filtered_lines < 4294967296) :
    (rofi_scroll_continious state).1 ≤ state.selected ∧
    state.selected < (rofi_scroll_continious state).1 + state.menu_lines ∧
    (state.filtered_lines ≤ state.menu_lines → (rofi_scroll_continious state).1 = 0) ∧
    (state.menu_lines ≤ state.filtered_lines →
      (rofi_scroll_continious state).1 + state.menu_lines ≤ state.filtered_lines) := by
  have hmid := scroll_middle_eq state.menu_lines hml hu1
  unfold rofi_scroll_continious
  simp only [hmid]
  unfold u32_sub
  refine ⟨?_, ?_, ?_, ?_⟩ <;> (repeat' split) <;> omega

/-- Witness of C16: ten entries, four rows, the cursor on entry 5 gives the
window starting at entry 4. -/
theorem scroll_continious_window_witness :
    1 ≤ ({ grid_state 10 3 5 with menu_lines := 4 } : RofiViewState).menu_lines ∧
    ({ grid_state 10 3 5 with menu_lines := 4 } : RofiViewState).selected
      < max ({ grid_state 10 3 5 with menu_lines := 4 } : RofiViewState).filtered_lines 1 ∧
    (rofi_scroll_continious { grid_state 10 3 5 with menu_lines := 4 }).1
      ≤ ({ grid_state 10 3 5 with menu_lines := 4 } : RofiViewState).selected ∧
    (rofi_scroll_continious { grid_state 10 3 5 with menu_lines := 4 }).1 = 4 :=
  ⟨by decide, by decide,
    (scroll_continious_window { grid_state 10 3 5 with menu_lines := 4 }
      (by decide) (by decide) (by decide) (by decide)).1, by decide⟩

/-! ## Properties of the grid geometry -/

/-- The code's rounding expression is the ceiling of `n / c`: the least `q`
with `n <= q * c`. -/
theorem rows_expression_is_ceiling (n c : Nat) (hc : 1 ≤ c) :
    n ≤ (n + (c - n % c) % c) / c * c ∧ (n + (c - n % c) % c) / c * c < n + c := by
  have h1 := Nat.div_add_mod n c
  have h2 := Nat.mod_lt n (show c > 0 by omega)
  by_cases hm : n % c = 0
  · have e : (n + (c - n % c) % c) / c = n / c := by
      rw [hm, Nat.sub_zero, Nat.mod_self, Nat.add_zero]
    rw [e, Nat.mul_comm]
    omega
  · have e : (n + (c - n % c) % c) / c = n / c + 1 := by
      rw [Nat.mod_eq_of_lt (by omega : c - n % c < c)]
      apply Nat.div_eq_of_lt_le
      · rw [Nat.succ_mul, Nat.mul_comm]; omega
      · rw [Nat.succ_mul, Nat.succ_mul, Nat.mul_comm]; omega
    rw [e, Nat.succ_mul, Nat.mul_comm]
    omega

theorem ceiling_le_of_fits (n c q k : Nat) (hq : q * c < n + c) (hk : n ≤ k * c) : q ≤ k := by
  have h : q * c < (k + 1) * c := by rw [Nat.succ_mul]; omega
  have := Nat.lt_of_mul_lt_mul_right h
  omega

theorem u32_add_small (a b : Nat) (h : a + b < 4294967296) : u32_add a b = a + b :=
  Nat.mod_eq_of_lt h

theorem u32_mul_small (a b : Nat) (h : a * b < 4294967296) : u32_mul a b = a * b :=
  Nat.mod_eq_of_lt h

/-- The code's rounded sum is a multiple of `c`. -/
theorem rows_expression_multiple (n c : Nat) (hc : 1 ≤ c) :
    (n + (c - n % c) % c) / c * c = n + (c - n % c) % c := by
  have h1 := Nat.div_add_mod n c
  have h2 := Nat.mod_lt n (show c > 0 by omega)
  by_cases hm : n % c = 0
  · rw [hm, Nat.sub_zero, Nat.mod_self, Nat.add_zero]
    exact Nat.div_mul_cancel (Nat.dvd_of_mod_eq_zero hm)
  · have e : (n + (c - n % c) % c) / c = n / c + 1 := by
      rw [Nat.mod_eq_of_lt (by omega : c - n % c < c)]
      apply Nat.div_eq_of_lt_le
      · rw [Nat.succ_mul, Nat.mul_comm]; omega
      · rw [Nat.succ_mul, Nat.succ_mul, Nat.mul_comm]; omega
    rw [e, Nat.mod_eq_of_lt (by omega : c - n % c < c), Nat.succ_mul, Nat.mul_comm]
    omega

/-- The rounded sum does not wrap when `n + c` is at most 2^32. -/
theorem rows_expression_small (n c : Nat) (hc : 1 ≤ c) (h : n + c ≤ 4294967296) :
    u32_add n ((c - n % c) % c) = n + (c - n % c) % c := by
  have := Nat.mod_lt (c - n % c) (show c > 0 by omega)
  exact u32_add_small _ _ (by omega)

/-- The result of `rofi_view_calculate_rows_columns` with rows not fixed. -/
theorem rofi_view_calculate_rows_columns_free (config : Config) (state : RofiViewState)
    (hfixed : config.fixed_num_lines = false) (hc : 1 ≤ config.menu_columns) :
    rofi_view_calculate_rows_columns config state
      = some { state with
          columns := config.menu_columns
          max_elements := min (u32_mul state.menu_lines config.menu_columns) state.num_lines
          max_rows := min state.menu_lines
            (u32_add state.num_lines
              ((config.menu_columns - state.num_lines % config.menu_columns)
                % config.menu_columns) / config.menu_columns) } := by
  have hz : ¬ config.menu_columns = 0 := by omega
  unfold rofi_view_calculate_rows_columns
  simp only [hz, if_false, hfixed, Bool.false_eq_true, Nat.zero_max]

/-- The result of `menu_calculate_rows_columns` with rows not fixed. -/
theorem menu_calculate_rows_columns_free (config : Config) (m : MenuState)
    (hfixed : config.fixed_num_lines = false) (hc : 1 ≤ config.menu_columns) :
    menu_calculate_rows_columns config m
      = some { m with
          columns := config.menu_columns
          max_elements := min (u32_mul m.menu_lines config.menu_columns) m.num_lines
          max_rows := max 1 (min m.menu_lines
            (u32_add m.num_lines
              ((config.menu_columns - m.num_lines % config.menu_columns)
                % config.menu_columns) / config.menu_columns)) } := by
  have hz : ¬ config.menu_columns = 0 := by omega
  unfold menu_calculate_rows_columns
  simp only [hz, if_false, hfixed, Bool.false_eq_true]

/-- C17, as stated, fails: with no entries, three rows configured and one
column, `rofi_view_calculate_rows_columns` sets `max_rows` to 0, not to
`max(1, min(3, 0)) = 1`. -/
theorem rows_columns_no_minimum_row :
    (columns_config 1 false).fixed_num_lines = false ∧
    1 ≤ (columns_config 1 false).menu_columns ∧
    (rofi_view_calculate_rows_columns (columns_config 1 false) (rows_state 0 3)).map
      RofiViewState.max_rows = some 0 ∧
    ¬ ((rofi_view_calculate_rows_columns (columns_config 1 false) (rows_state 0 3)).map
      RofiViewState.max_rows
      = some (max 1 (min (rows_state 0 3).menu_lines
          (((rows_state 0 3).num_lines + ((columns_config 1 false).menu_columns
            - (rows_state 0 3).num_lines % (columns_config 1 false).menu_columns)
            % (columns_config 1 false).menu_columns)
            / (columns_config 1 false).menu_columns)))) :=
  ⟨rfl, by decide, by decide, by decide⟩

/-- C17, amended: with `fixed_num_lines` off, `menu_columns >= 1` and
`num_lines + menu_columns <= 2^32` (so that the rounded sum does not wrap as
`unsigned int`), `rofi_view_calculate_rows_columns` sets
`max_rows = min(menu_lines, ceil(num_lines / columns))` with no lower bound of
1 (it is 0 when `num_lines = 0` or `menu_lines = 0`), where the code's
expression is the ceiling; the earlier `menu_calculate_rows_columns` of
`rofi.c` does clamp the same value to at least 1. -/
theorem rows_columns_max_rows (config : Config) (state : RofiViewState)
    (hfixed : config.fixed_num_lines = false) (hc : 1 ≤ config.menu_columns)
    (hsum : state.num_lines + config.menu_columns ≤ 4294967296) :
    (∃ s, rofi_view_calculate_rows_columns config state = some s ∧
      s.columns = config.menu_columns ∧
      s.max_rows = min state.menu_lines
        ((state.num_lines + (config.menu_columns - state.num_lines % config.menu_columns)
          % config.menu_columns) / config.menu_columns) ∧
      (state.num_lines = 0 ∨ state.menu_lines = 0 → s.max_rows = 0)) ∧
    (state.num_lines ≤ (state.num_lines
        + (config.menu_columns - state.num_lines % config.menu_columns)
          % config.menu_columns) / config.menu_columns * config.menu_columns ∧
      (state.num_lines + (config.menu_columns - state.num_lines % config.menu_columns)
          % config.menu_columns) / config.menu_columns * config.menu_columns
        < state.num_lines + config.menu_columns) ∧
    (∀ m : MenuState, m.num_lines = state.num_lines → m.menu_lines = state.menu_lines →
      ∃ m', menu_calculate_rows_columns config m = some m' ∧
        m'.max_rows = max 1 (min state.menu_lines
          ((state.num_lines + (config.menu_columns - state.num_lines % config.menu_columns)
            % config.menu_columns) / config.menu_columns))) := by
  have hadd := rows_expression_small state.num_lines config.menu_columns hc hsum
  refine ⟨⟨_, rofi_view_calculate_rows_columns_free config state hfixed hc, rfl, ?_, ?_⟩,
    rows_expression_is_ceiling _ _ hc, ?_⟩
  · show min state.menu_lines (u32_add _ _ / _) = _
    rw [hadd]
  · intro h
    show min state.menu_lines (u32_add _ _ / _) = 0
    rw [hadd]
    rcases h with h | h
    · simp only [h, Nat.zero_mod, Nat.sub_zero, Nat.mod_self, Nat.add_zero, Nat.zero_div,
        Nat.min_zero]
    · simp only [h, Nat.zero_min]
  · intro m hn hl
    refine ⟨_, menu_calculate_rows_columns_free config m hfixed hc, ?_⟩
    show max 1 (min m.menu_lines (u32_add m.num_lines _ / _)) = _
    rw [hn, hl, hadd]

/-- Witness of C17 (amended): five entries in two columns with ten rows
configured need three rows. -/
theorem rows_columns_max_rows_witness :
    (columns_config 2 false).fixed_num_lines = false ∧
    1 ≤ (columns_config 2 false).menu_columns ∧
    (rows_state 5 10).num_lines + (columns_config 2 false).menu_columns ≤ 4294967296 ∧
    ((rows_state 5 10).num_lines ≤ ((rows_state 5 10).num_lines
        + ((columns_config 2 false).menu_columns
            - (rows_state 5 10).num_lines % (columns_config 2 false).menu_columns)
          % (columns_config 2 false).menu_columns) / (columns_config 2 false).menu_columns
        * (columns_config 2 false).menu_columns ∧
      ((rows_state 5 10).num_lines + ((columns_config 2 false).menu_columns
            - (rows_state 5 10).num_lines % (columns_config 2 false).menu_columns)
          % (columns_config 2 false).menu_columns) / (columns_config 2 false).menu_columns
        * (columns_config 2 false).menu_columns
        < (rows_state 5 10).num_lines + (columns_config 2 false).menu_columns) ∧
    (rofi_view_calculate_rows_columns (columns_config 2 false) (rows_state 5 10)).map
      RofiViewState.max_rows = some 3 :=
  ⟨rfl, by decide, by decide,
    (rows_columns_max_rows (columns_config 2 false) (rows_state 5 10) rfl (by decide)
      (by decide)).2.1,
    by decide⟩

/-- The result of `rofi_view_calculate_rows_columns` with fixed rows when
the entries fill the configured grid. -/
theorem rofi_view_calculate_rows_columns_fixed_full (config : Config) (state : RofiViewState)
    (hfixed : config.fixed_num_lines = true) (hc : 1 ≤ config.menu_columns)
    (hfull : u32_mul state.menu_lines config.menu_columns ≤ state.num_lines) :
    rofi_view_calculate_rows_columns config state
      = some { state with
          columns := config.menu_columns
          max_elements := u32_mul state.menu_lines config.menu_columns
          max_rows := state.menu_lines } := by
  have hz : ¬ config.menu_columns = 0 := by omega
  unfold rofi_view_calculate_rows_columns sanitize_columns
  simp only [hz, if_false, hfixed, if_true, Nat.not_lt.mpr hfull]

/-- The result of `rofi_view_calculate_rows_columns` with fixed rows when
the entries do not fill the configured grid. -/
theorem rofi_view_calculate_rows_columns_fixed_shrunk (config : Config) (state : RofiViewState)
    (hfixed : config.fixed_num_lines = true) (hc : 1 ≤ config.menu_columns)
    (hless : state.num_lines < u32_mul state.menu_lines config.menu_columns) :
    rofi_view_calculate_rows_columns config state
      = some { state with
          columns := max 1 (u32_add state.num_lines
            ((state.menu_lines - state.num_lines % state.menu_lines) % state.menu_lines)
            / state.menu_lines)
          max_elements := u32_mul state.menu_lines (max 1 (u32_add state.num_lines
            ((state.menu_lines - state.num_lines % state.menu_lines) % state.menu_lines)
            / state.menu_lines))
          max_rows := state.menu_lines } := by
  have hz : ¬ config.menu_columns = 0 := by omega
  have hml : ¬ state.menu_lines = 0 := by
    intro h
    rw [h] at hless
    simp [u32_mul] at hless
  have hmax : ¬ max 1 (u32_add state.num_lines
      ((state.menu_lines - state.num_lines % state.menu_lines) % state.menu_lines)
      / state.menu_lines) = 0 := by omega
  unfold rofi_view_calculate_rows_columns sanitize_columns
  simp only [hz, if_false, hfixed, if_true, hless, hml, hmax]

/-- With fixed rows, a product `menu_lines * menu_columns` below 2^32 and
fewer entries than that product, neither the rounded sum nor the final
product wraps, and the column count is at most `menu_columns`. -/
theorem fixed_shrunk_small (nl ml c : Nat) (hml : 1 ≤ ml)
    (hmul : ml * c < 4294967296) (hless : nl < ml * c) :
    u32_add nl ((ml - nl % ml) % ml) = nl + (ml - nl % ml) % ml ∧
    max 1 ((nl + (ml - nl % ml) % ml) / ml) ≤ c ∧
    u32_mul ml (max 1 ((nl + (ml - nl % ml) % ml) / ml))
      = ml * max 1 ((nl + (ml - nl % ml) % ml) / ml) := by
  have hceil := rows_expression_is_ceiling nl ml hml
  have hmult := rows_expression_multiple nl ml hml
  have hc : 1 ≤ c := by
    rcases Nat.eq_zero_or_pos c with h | h
    · rw [h, Nat.mul_zero] at hless
      omega
    · exact h
  have hq : (nl + (ml - nl % ml) % ml) / ml ≤ c :=
    ceiling_le_of_fits _ _ _ c hceil.2 (by rw [Nat.mul_comm]; omega)
  have hqc : (nl + (ml - nl % ml) % ml) / ml * ml ≤ c * ml := Nat.mul_le_mul_right _ hq
  have hcm : c * ml = ml * c := Nat.mul_comm _ _
  have hmax : max 1 ((nl + (ml - nl % ml) % ml) / ml) ≤ c := by omega
  refine ⟨u32_add_small _ _ (by omega), hmax, u32_mul_small _ _ ?_⟩
  exact Nat.lt_of_le_of_lt (Nat.mul_le_mul_left _ hmax) hmul

/-- C18, as stated, fails: with 7 entries, 2147483648 fixed rows and 2
columns configured the product of rows and columns wraps to 0 as
`unsigned int`, so `rofi_view_calculate_rows_columns` keeps `columns = 2` and
sets `max_elements = 0`: `max_elements` is not the product of `menu_lines`
and `columns`, `columns` is not the smallest `c >= 1` with
`c * menu_lines >= num_lines` (which is 1), and the entries do not fit. -/
theorem rows_columns_fixed_product_wraps :
    (columns_config 2 true).fixed_num_lines = true ∧
    1 ≤ (rows_state 7 2147483648).menu_lines ∧
    1 ≤ (columns_config 2 true).menu_columns ∧
    (rofi_view_calculate_rows_columns (columns_config 2 true) (rows_state 7 2147483648)).map
      (fun s => (s.max_rows, s.columns, s.max_elements)) = some (2147483648, 2, 0) ∧
    (rows_state 7 2147483648).num_lines
      < (rows_state 7 2147483648).menu_lines * (columns_config 2 true).menu_columns ∧
    ¬ (∃ s, rofi_view_calculate_rows_columns (columns_config 2 true)
        (rows_state 7 2147483648) = some s ∧
      s.max_elements = (rows_state 7 2147483648).menu_lines * s.columns) ∧
    ¬ (∃ s, rofi_view_calculate_rows_columns (columns_config 2 true)
        (rows_state 7 2147483648) = some s ∧
      ∀ c, 1 ≤ c → (rows_state 7 2147483648).num_lines
        ≤ c * (rows_state 7 2147483648).menu_lines → s.columns ≤ c) ∧
    ¬ (∃ s, rofi_view_calculate_rows_columns (columns_config 2 true)
        (rows_state 7 2147483648) = some s ∧
      (rows_state 7 2147483648).num_lines ≤ s.max_elements) := by
  have hres := rofi_view_calculate_rows_columns_fixed_full (columns_config 2 true)
    (rows_state 7 2147483648) rfl (by decide) (by decide)
  refine ⟨rfl, by decide, by decide, by decide, by decide, ?_, ?_, ?_⟩
  · rintro ⟨s, hs, h⟩
    rw [hres] at hs
    cases hs
    revert h
    decide
  · rintro ⟨s, hs, h⟩
    rw [hres] at hs
    cases hs
    have h1 := h 1 (by decide) (by decide)
    revert h1
    decide
  · rintro ⟨s, hs, h⟩
    rw [hres] at hs
    cases hs
    revert h
    decide

/-- C18, amended: with `fixed_num_lines` on, `menu_lines >= 1`,
`menu_columns >= 1` and `menu_lines * menu_columns < 2^32` (so that the
product does not wrap as `unsigned int`),
`rofi_view_calculate_rows_columns` sets `max_rows = menu_lines` and
`max_elements = menu_lines * columns`, where `columns = menu_columns` when
`num_lines >= menu_lines * menu_columns`, and otherwise `columns` is the
smallest `c >= 1` with `c * menu_lines >= num_lines` (so
`columns <= menu_columns` and every entry fits in the grid). -/
theorem rows_columns_fixed (config : Config) (state : RofiViewState)
    (hfixed : config.fixed_num_lines = true) (hml : 1 ≤ state.menu_lines)
    (hc : 1 ≤ config.menu_columns)
    (hmul : state.menu_lines * config.menu_columns < 4294967296) :
    ∃ s, rofi_view_calculate_rows_columns config state = some s ∧
      s.max_rows = state.menu_lines ∧
      s.max_elements = state.menu_lines * s.columns ∧
      (state.menu_lines * config.menu_columns ≤ state.num_lines →
        s.columns = config.menu_columns) ∧
      (state.num_lines < state.menu_lines * config.menu_columns →
        1 ≤ s.columns ∧ state.num_lines ≤ s.columns * state.menu_lines ∧
        (∀ c, 1 ≤ c → state.num_lines ≤ c * state.menu_lines → s.columns ≤ c) ∧
        s.columns ≤ config.menu_columns ∧ state.num_lines ≤ s.max_elements) := by
  have hprod := u32_mul_small _ _ hmul
  by_cases hfull : state.menu_lines * config.menu_columns ≤ state.num_lines
  · refine ⟨_, rofi_view_calculate_rows_columns_fixed_full config state hfixed hc
        (by rw [hprod]; exact hfull), rfl, hprod, fun _ => rfl, ?_⟩
    intro h
    omega
  · have hless : state.num_lines < state.menu_lines * config.menu_columns := by omega
    obtain ⟨hadd, hle, hmax⟩ :=
      fixed_shrunk_small state.num_lines state.menu_lines config.menu_columns hml hmul hless
    have hceil := rows_expression_is_ceiling state.num_lines state.menu_lines hml
    have hmin : ∀ c, 1 ≤ c → state.num_lines ≤ c * state.menu_lines →
        max 1 ((state.num_lines
          + (state.menu_lines - state.num_lines % state.menu_lines) % state.menu_lines)
          / state.menu_lines) ≤ c := by
      intro c h1 h2
      have := ceiling_le_of_fits _ _ _ c hceil.2 h2
      omega
    have hfit : state.num_lines ≤ max 1 ((state.num_lines
          + (state.menu_lines - state.num_lines % state.menu_lines) % state.menu_lines)
          / state.menu_lines) * state.menu_lines := by
      have hle : (state.num_lines
          + (state.menu_lines - state.num_lines % state.menu_lines) % state.menu_lines)
          / state.menu_lines * state.menu_lines
          ≤ max 1 ((state.num_lines
          + (state.menu_lines - state.num_lines % state.menu_lines) % state.menu_lines)
          / state.menu_lines) * state.menu_lines :=
        Nat.mul_le_mul_right _ (Nat.le_max_right _ _)
      omega
    refine ⟨_, rofi_view_calculate_rows_columns_fixed_shrunk config state hfixed hc
        (by rw [hprod]; exact hless), rfl, ?_, fun h => absurd h hfull, ?_⟩
    · show u32_mul state.menu_lines (max 1 (u32_add _ _ / _)) = _ * max 1 (u32_add _ _ / _)
      rw [hadd]
      exact hmax
    · intro _
      show 1 ≤ max 1 (u32_add _ _ / _) ∧ _ ≤ max 1 (u32_add _ _ / _) * _ ∧
        (∀ c, 1 ≤ c → _ → max 1 (u32_add _ _ / _) ≤ c) ∧
        max 1 (u32_add _ _ / _) ≤ _ ∧
        _ ≤ u32_mul state.menu_lines (max 1 (u32_add _ _ / _))
      rw [hadd, hmax]
      refine ⟨Nat.le_max_left _ _, hfit, hmin, hle, ?_⟩
      rw [Nat.mul_comm]
      exact hfit

/-- Witness of C18 (amended): five entries with four fixed rows and three
columns configured use two columns. -/
theorem rows_columns_fixed_witness :
    (columns_config 3 true).fixed_num_lines = true ∧ 1 ≤ (rows_state 5 4).menu_lines ∧
    1 ≤ (columns_config 3 true).menu_columns ∧
    (rows_state 5 4).menu_lines * (columns_config 3 true).menu_columns < 4294967296 ∧
    (∃ s, rofi_view_calculate_rows_columns (columns_config 3 true) (rows_state 5 4) = some s ∧
      s.max_rows = (rows_state 5 4).menu_lines ∧
      s.max_elements = (rows_state 5 4).menu_lines * s.columns) ∧
    (rofi_view_calculate_rows_columns (columns_config 3 true) (rows_state 5 4)).map
      (fun s => (s.max_rows, s.columns, s.max_elements)) = some (4, 2, 8) :=
  ⟨rfl, by decide, by decide, by decide,
    (rows_columns_fixed (columns_config 3 true) (rows_state 5 4) rfl (by decide)
      (by decide) (by decide)).imp fun _ h => ⟨h.1, h.2.1, h.2.2.1⟩,
    by decide⟩

/-- C19, as stated, fails: with five entries, ten rows and two columns
configured and rows not fixed, `rofi_view_calculate_rows_columns` sets
`max_elements = 5`, `max_rows = 3` and `columns = 2`, and `5` is not
`3 * 2`. -/
theorem rows_columns_elements_not_product :
    1 ≤ (columns_config 2 false).menu_columns ∧
    (rofi_view_calculate_rows_columns (columns_config 2 false) (rows_state 5 10)).map
      (fun s => (s.max_elements, s.max_rows, s.columns)) = some (5, 3, 2) ∧
    ¬ (∃ s, rofi_view_calculate_rows_columns (columns_config 2 false) (rows_state 5 10)
        = some s ∧ s.max_elements = s.max_rows * s.columns) := by
  refine ⟨by decide, by decide, ?_⟩
  rintro ⟨s, hs, he⟩
  rw [rofi_view_calculate_rows_columns_free _ _ rfl (by decide)] at hs
  cases hs
  revert he
  decide

/-- C19, amended: for `menu_columns >= 1`, `menu_lines * menu_columns < 2^32`
and `num_lines + menu_columns <= 2^32` (so that neither the product nor the
rounded sum wraps as `unsigned int`), after
`rofi_view_calculate_rows_columns` the grid satisfies
`max_elements = max_rows * columns` when `fixed_num_lines` is on; when it is
off, `max_elements = min(menu_lines * columns, num_lines)`, which is at most
`max_rows * columns` and equals it when `num_lines >= menu_lines * columns`
or when `columns` divides `num_lines`. -/
theorem rows_columns_elements (config : Config) (state : RofiViewState)
    (hc : 1 ≤ config.menu_columns)
    (hmul : state.menu_lines * config.menu_columns < 4294967296)
    (hsum : state.num_lines + config.menu_columns ≤ 4294967296) :
    ∃ s, rofi_view_calculate_rows_columns config state = some s ∧
      (config.fixed_num_lines = true → s.max_elements = s.max_rows * s.columns) ∧
      (config.fixed_num_lines = false →
        s.max_elements = min (state.menu_lines * s.columns) state.num_lines ∧
        s.max_elements ≤ s.max_rows * s.columns ∧
        (state.menu_lines * s.columns ≤ state.num_lines ∨ state.num_lines % s.columns = 0 →
          s.max_elements = s.max_rows * s.columns)) := by
  have hprod := u32_mul_small _ _ hmul
  have hadd := rows_expression_small state.num_lines config.menu_columns hc hsum
  cases hfixed : config.fixed_num_lines
  · have hceil := rows_expression_is_ceiling state.num_lines config.menu_columns hc
    refine ⟨_, rofi_view_calculate_rows_columns_free config state hfixed hc,
      fun h => absurd h (by simp), fun _ => ⟨?_, ?_, ?_⟩⟩
    · show min (u32_mul _ _) _ = _
      rw [hprod]
    · show min (u32_mul state.menu_lines config.menu_columns) state.num_lines
        ≤ min state.menu_lines (u32_add _ _ / _) * config.menu_columns
      rw [hprod, hadd]
      rcases Nat.le_total state.menu_lines ((state.num_lines
        + (config.menu_columns - state.num_lines % config.menu_columns)
          % config.menu_columns) / config.menu_columns) with h | h
      · rw [Nat.min_eq_left h]
        exact Nat.min_le_left _ _
      · rw [Nat.min_eq_right h]
        exact Nat.le_trans (Nat.min_le_right _ _) hceil.1
    · intro h
      show min (u32_mul state.menu_lines config.menu_columns) state.num_lines
        = min state.menu_lines (u32_add _ _ / _) * config.menu_columns
      rw [hprod, hadd]
      rcases h with h | h
      · have h' : state.menu_lines * config.menu_columns ≤ state.num_lines := h
        have hq : state.menu_lines ≤ (state.num_lines
            + (config.menu_columns - state.num_lines % config.menu_columns)
              % config.menu_columns) / config.menu_columns := by
          rw [Nat.le_div_iff_mul_le (by omega)]
          omega
        rw [Nat.min_eq_left h', Nat.min_eq_left hq]
      · have h' : state.num_lines % config.menu_columns = 0 := h
        have hq : (state.num_lines
            + (config.menu_columns - state.num_lines % config.menu_columns)
              % config.menu_columns) / config.menu_columns * config.menu_columns
            = state.num_lines := by
          rw [h', Nat.sub_zero, Nat.mod_self, Nat.add_zero]
          exact Nat.div_mul_cancel (Nat.dvd_of_mod_eq_zero h')
        rcases Nat.le_total state.menu_lines ((state.num_lines
          + (config.menu_columns - state.num_lines % config.menu_columns)
            % config.menu_columns) / config.menu_columns) with hle | hle
        · rw [Nat.min_eq_left hle]
          have := Nat.mul_le_mul_right config.menu_columns hle
          rw [hq] at this
          exact Nat.min_eq_left this
        · rw [Nat.min_eq_right hle, hq]
          have := Nat.mul_le_mul_right config.menu_columns hle
          rw [hq] at this
          exact Nat.min_eq_right this
  · by_cases hfull : state.menu_lines * config.menu_columns ≤ state.num_lines
    · exact ⟨_, rofi_view_calculate_rows_columns_fixed_full config state hfixed hc
        (by rw [hprod]; exact hfull), fun _ => hprod, fun h => absurd h (by simp)⟩
    · have hless : state.num_lines < state.menu_lines * config.menu_columns := by omega
      have hml : 1 ≤ state.menu_lines := by
        rcases Nat.eq_zero_or_pos state.menu_lines with h | h
        · rw [h, Nat.zero_mul] at hless
          omega
        · exact h
      obtain ⟨hadd2, _, hmax⟩ :=
        fixed_shrunk_small state.num_lines state.menu_lines config.menu_columns hml hmul hless
      refine ⟨_, rofi_view_calculate_rows_columns_fixed_shrunk config state hfixed hc
        (by rw [hprod]; exact hless), fun _ => ?_, fun h => absurd h (by simp)⟩
      show u32_mul state.menu_lines (max 1 (u32_add _ _ / _))
        = state.menu_lines * max 1 (u32_add _ _ / _)
      rw [hadd2]
      exact hmax

/-- Witness of C19 (amended): six entries in two columns with ten rows
configured and rows not fixed give `max_elements = 6 = 3 * 2`. -/
theorem rows_columns_elements_witness :
    1 ≤ (columns_config 2 false).menu_columns ∧
    (rows_state 6 10).menu_lines * (columns_config 2 false).menu_columns < 4294967296 ∧
    (rows_state 6 10).num_lines + (columns_config 2 false).menu_columns ≤ 4294967296 ∧
    (∃ s, rofi_view_calculate_rows_columns (columns_config 2 false) (rows_state 6 10) = some s ∧
      ((columns_config 2 false).fixed_num_lines = true →
        s.max_elements = s.max_rows * s.columns)) ∧
    (rofi_view_calculate_rows_columns (columns_config 2 false) (rows_state 6 10)).map
      (fun s => (s.max_elements, s.max_rows, s.columns)) = some (6, 3, 2) :=
  ⟨by decide, by decide, by decide,
    (rows_columns_elements (columns_config 2 false) (rows_state 6 10) (by decide)
      (by decide) (by decide)).imp fun _ h => ⟨h.1, h.2.1⟩,
    by decide⟩

/-- Beyond the bounds `num_lines + menu_columns <= 2^32` and
`menu_lines * menu_columns < 2^32` the `unsigned int` operations wrap:
4294967295 entries in two columns give a rounded sum of 0 and so
`max_rows = 0`, and 2147483648 rows of two columns give a product of 0 and
so `max_elements = 0`. -/
theorem rows_columns_wrapping_samples :
    (rofi_view_calculate_rows_columns (columns_config 2 false)
      (rows_state 4294967295 3)).map
      (fun s => (s.max_rows, s.columns, s.max_elements)) = some (0, 2, 6) ∧
    (rofi_view_calculate_rows_columns (columns_config 2 false)
      (rows_state 7 2147483648)).map
      (fun s => (s.max_rows, s.columns, s.max_elements)) = some (4, 2, 0) :=
  ⟨by decide, by decide⟩

/-! ## Properties of the combined provider -/

theorem combi_preprocess_input_null (mode_get_name : Mode → List Char)
    (utf8_strncmp : List Char → List Char → Nat → Int) (pd : CombiModePrivateData) :
    (combi_preprocess_input mode_get_name utf8_strncmp pd none).2 = none := rfl

theorem combi_preprocess_input_plain (mode_get_name : Mode → List Char)
    (utf8_strncmp : List Char → List Char → Nat → Int) (pd : CombiModePrivateData)
    (text : List Char) (h : starts_with_bang text = false) :
    (combi_preprocess_input mode_get_name utf8_strncmp pd (some text)).2 = some text := by
  unfold combi_preprocess_input
  simp only
  split
  · rename_i hb
    have h2 : ¬ (2 ≤ strchrnul text ' ') := by
      intro h2
      simp [starts_with_bang, hb, h2] at h
    rw [if_neg (by omega)]
  · rfl

theorem combi_preprocess_input_bang (mode_get_name : Mode → List Char)
    (utf8_strncmp : List Char → List Char → Nat → Int) (pd : CombiModePrivateData)
    (text : List Char) (h : starts_with_bang text = true) :
    ((combi_preprocess_input mode_get_name utf8_strncmp pd (some text)).2 = none ∨
      (combi_preprocess_input mode_get_name utf8_strncmp pd (some text)).2
        = some (text.drop (strchrnul text ' ' + 1))) ∧
    (combi_preprocess_input mode_get_name utf8_strncmp pd (some text)).2 ≠ some text := by
  have hb : text.head? = some '!' := by
    simp [starts_with_bang] at h
    exact h.1
  have h2 : 2 ≤ strchrnul text ' ' := by
    simp [starts_with_bang] at h
    exact h.2
  have hne : text ≠ [] := by
    intro he
    rw [he] at hb
    simp at hb
  have hcases : (combi_preprocess_input mode_get_name utf8_strncmp pd (some text)).2 = none ∨
      (combi_preprocess_input mode_get_name utf8_strncmp pd (some text)).2
        = some (text.drop (strchrnul text ' ' + 1)) := by
    unfold combi_preprocess_input
    simp only
    rw [if_pos hb, if_pos (by omega)]
    split
    · exact Or.inl rfl
    · exact Or.inr rfl
  refine ⟨hcases, ?_⟩
  rcases hcases with hc | hc
  · rw [hc]; simp
  · rw [hc]
    intro he
    have hl := congrArg List.length (Option.some.inj he)
    rw [List.length_drop] at hl
    have := List.length_pos.mpr hne
    omega

/-- C20, as stated, fails: `combi_preprocess_input` turns `"!a !b c"` into
`"!b c"`, and applied to that result it returns `"c"`. -/
theorem combi_preprocess_strips_twice :
    (combi_preprocess_input sample_mode_name sample_strncmp sample_combi
      (some ['!', 'a', ' ', '!', 'b', ' ', 'c'])).2 = some ['!', 'b', ' ', 'c'] ∧
    (combi_preprocess_input sample_mode_name sample_strncmp
      (combi_preprocess_input sample_mode_name sample_strncmp sample_combi
        (some ['!', 'a', ' ', '!', 'b', ' ', 'c'])).1
      (combi_preprocess_input sample_mode_name sample_strncmp sample_combi
        (some ['!', 'a', ' ', '!', 'b', ' ', 'c'])).2).2 = some ['c'] ∧
    ¬ ((combi_preprocess_input sample_mode_name sample_strncmp
      (combi_preprocess_input sample_mode_name sample_strncmp sample_combi
        (some ['!', 'a', ' ', '!', 'b', ' ', 'c'])).1
      (combi_preprocess_input sample_mode_name sample_strncmp sample_combi
        (some ['!', 'a', ' ', '!', 'b', ' ', 'c'])).2).2
      = (combi_preprocess_input sample_mode_name sample_strncmp sample_combi
        (some ['!', 'a', ' ', '!', 'b', ' ', 'c'])).2) :=
  ⟨by decide, by decide, by decide⟩

/-- C20, amended: `combi_preprocess_input` strips one `!name ` prefix per
call.  It is idempotent on the text it returns whenever that text is `NULL`
or carries no bang prefix of its own (it does not start with `!` followed by
a character other than a space); a text that does carry one is never a fixed
point. -/
theorem combi_preprocess_idempotent_without_bang (mode_get_name : Mode → List Char)
    (utf8_strncmp : List Char → List Char → Nat → Int) (pd pd' : CombiModePrivateData)
    (input : Option (List Char))
    (h : ∀ y, (combi_preprocess_input mode_get_name utf8_strncmp pd input).2 = some y →
      starts_with_bang y = false) :
    (combi_preprocess_input mode_get_name utf8_strncmp pd'
        (combi_preprocess_input mode_get_name utf8_strncmp pd input).2).2
      = (combi_preprocess_input mode_get_name utf8_strncmp pd input).2 ∧
    (∀ y, starts_with_bang y = true →
      (combi_preprocess_input mode_get_name utf8_strncmp pd' (some y)).2 ≠ some y) := by
  refine ⟨?_, fun y hy => (combi_preprocess_input_bang _ _ pd' y hy).2⟩
  cases hr : (combi_preprocess_input mode_get_name utf8_strncmp pd input).2 with
  | none => rfl
  | some y => exact combi_preprocess_input_plain _ _ pd' y (h y hr)

/-- Witness of C20 (amended): `"!run ls"` becomes `"ls"`, which a second call
returns unchanged. -/
theorem combi_preprocess_idempotent_without_bang_witness :
    (∀ y, (combi_preprocess_input sample_mode_name sample_strncmp sample_combi
        (some ['!', 'r', 'u', 'n', ' ', 'l', 's'])).2 = some y →
      starts_with_bang y = false) ∧
    (combi_preprocess_input sample_mode_name sample_strncmp sample_combi
        (combi_preprocess_input sample_mode_name sample_strncmp sample_combi
          (some ['!', 'r', 'u', 'n', ' ', 'l', 's'])).2).2
      = (combi_preprocess_input sample_mode_name sample_strncmp sample_combi
          (some ['!', 'r', 'u', 'n', ' ', 'l', 's'])).2 ∧
    (combi_preprocess_input sample_mode_name sample_strncmp sample_combi
        (some ['!', 'r', 'u', 'n', ' ', 'l', 's'])).2 = some ['l', 's'] :=
  ⟨by
      intro y hy
      have e : (combi_preprocess_input sample_mode_name sample_strncmp sample_combi
          (some ['!', 'r', 'u', 'n', ' ', 'l', 's'])).2 = some ['l', 's'] := by decide
      rw [e] at hy
      cases hy
      decide,
    (combi_preprocess_idempotent_without_bang sample_mode_name sample_strncmp sample_combi
      sample_combi (some ['!', 'r', 'u', 'n', ' ', 'l', 's'])
      (by
        intro y hy
        have e : (combi_preprocess_input sample_mode_name sample_strncmp sample_combi
            (some ['!', 'r', 'u', 'n', ' ', 'l', 's'])).2 = some ['l', 's'] := by decide
        rw [e] at hy
        cases hy
        decide)).1,
    by decide⟩


/-! ## Properties of desktop entry matching -/

theorem drun_match_categories_eq (helper_token_match : List GRegex → List Char → Bool)
    (ftokens : List GRegex) :
    ∀ (list : List (List Char)) (test : Bool),
      drun_match_categories helper_token_match ftokens test list = true ↔
        (test = true ∨ ∃ c, c ∈ list ∧ helper_token_match ftokens c = true) := by
  intro list
  induction list with
  | nil => intro test; simp [drun_match_categories]
  | cons c rest ih =>
    intro test
    unfold drun_match_categories
    cases test with
    | true => simp
    | false =>
      simp only [if_true, ih]
      constructor
      · rintro (h | ⟨c', hc', h⟩)
        · exact Or.inr ⟨c, List.mem_cons_self _ _, h⟩
        · exact Or.inr ⟨c', List.mem_cons_of_mem _ hc', h⟩
      · rintro (h | ⟨c', hc', h⟩)
        · cases h
        · rcases List.mem_cons.mp hc' with rfl | hc''
          · exact Or.inl h
          · exact Or.inr ⟨c', hc'', h⟩

theorem drun_match_token_iff (helper_token_match : List GRegex → List Char → Bool)
    (entry : DRunModeEntry) (token : GRegex) :
    drun_match_token helper_token_match entry token = true ↔
      drun_field_matches helper_token_match entry token := by
  obtain ⟨exec, name, generic_name, categories⟩ := entry
  have hcat := drun_match_categories_eq helper_token_match [token]
  simp only [drun_match_token, drun_field_matches]
  rcases name with _ | name <;> rcases generic_name with _ | gname <;>
    rcases categories with _ | cats
  · cases h3 : helper_token_match [token] exec <;> simp_all
  · cases h3 : helper_token_match [token] exec <;> simp_all
  · cases h2 : helper_token_match [token] gname <;>
      cases h3 : helper_token_match [token] exec <;> simp_all
  · cases h2 : helper_token_match [token] gname <;>
      cases h3 : helper_token_match [token] exec <;> simp_all
  · cases h1 : helper_token_match [token] name <;>
      cases h3 : helper_token_match [token] exec <;> simp_all
  · cases h1 : helper_token_match [token] name <;>
      cases h3 : helper_token_match [token] exec <;> simp_all
  · cases h1 : helper_token_match [token] name <;>
      cases h2 : helper_token_match [token] gname <;>
      cases h3 : helper_token_match [token] exec <;> simp_all
  · cases h1 : helper_token_match [token] name <;>
      cases h2 : helper_token_match [token] gname <;>
      cases h3 : helper_token_match [token] exec <;> simp_all

theorem drun_token_loop_zero (helper_token_match : List GRegex → List Char → Bool)
    (entry : DRunModeEntry) :
    ∀ tokens : List GRegex, drun_token_loop helper_token_match entry 0 tokens = 0
  | [] => rfl
  | _ :: _ => by simp [drun_token_loop]

theorem drun_token_loop_one (helper_token_match : List GRegex → List Char → Bool)
    (entry : DRunModeEntry) :
    ∀ tokens : List GRegex,
      (drun_token_loop helper_token_match entry 1 tokens = 1 ↔
        ∀ token ∈ tokens, drun_field_matches helper_token_match entry token) ∧
      (drun_token_loop helper_token_match entry 1 tokens = 0 ∨
        drun_token_loop helper_token_match entry 1 tokens = 1) := by
  intro tokens
  induction tokens with
  | nil => simp [drun_token_loop]
  | cons token rest ih =>
    unfold drun_token_loop
    simp only [ne_eq, Nat.one_ne_zero, not_false_eq_true, if_true]
    cases ht : drun_match_token helper_token_match entry token with
    | true =>
      have hm := (drun_match_token_iff helper_token_match entry token).mp ht
      simp only [Bool.true_eq_false, if_false]
      refine ⟨?_, ih.2⟩
      rw [ih.1]
      constructor
      · intro h tk htk
        rcases List.mem_cons.mp htk with rfl | htk'
        · exact hm
        · exact h tk htk'
      · intro h tk htk
        exact h tk (List.mem_cons_of_mem _ htk)
    | false =>
      have hm : ¬ drun_field_matches helper_token_match entry token := by
        intro h
        rw [← drun_match_token_iff, ht] at h
        cases h
      have e : drun_token_loop helper_token_match entry
          (if false = false then 0 else 1) rest = 0 := by
        rw [if_pos rfl, drun_token_loop_zero]
      rw [e]
      refine ⟨?_, Or.inl rfl⟩
      constructor
      · intro h; cases h
      · intro h
        exact absurd (h token (List.mem_cons_self _ _)) hm

/-- C21: `drun_token_match` returns 1 if and only if every token, taken
alone, is matched by `helper_token_match` against at least one of the entry's
fields name (if present), generic name (if present), `exec`, or one of its
categories; it returns 0 otherwise, and 1 for every entry when the token list
is empty or `NULL`. -/
theorem drun_token_match_all_tokens (helper_token_match : List GRegex → List Char → Bool)
    (entry_list : Nat → DRunModeEntry) (index : Nat) :
    (∀ tokens : List GRegex,
      (drun_token_match helper_token_match entry_list (some tokens) index = 1 ↔
        ∀ token ∈ tokens,
          drun_field_matches helper_token_match (entry_list index) token) ∧
      (drun_token_match helper_token_match entry_list (some tokens) index = 0 ∨
        drun_token_match helper_token_match entry_list (some tokens) index = 1)) ∧
    drun_token_match helper_token_match entry_list (some []) index = 1 ∧
    drun_token_match helper_token_match entry_list none index = 1 :=
  ⟨fun tokens => drun_token_loop_one helper_token_match (entry_list index) tokens, rfl, rfl⟩


/-! ## Properties of the list view cursor -/

/-- C22: with no elements requested, `listview_set_selected ( lv, 5 )` leaves
`selected = 5` instead of 0, and so does `listview_set_num_elements ( lv, 0 )`
on a view whose cursor was on row 5: `req_elements - 1` wraps to the largest
`unsigned int`, so `MIN` keeps the argument.  With `req_elements >= 1` the
cursor is `min(s, req_elements - 1)` and in range. -/
theorem listview_set_selected_no_elements :
    (listview_set_selected { sample_listview with req_elements := 0 } 5).selected = 5 ∧
    ¬ ((listview_set_selected { sample_listview with req_elements := 0 } 5).selected
      < max ({ sample_listview with req_elements := 0 } : listview).req_elements 1) ∧
    (listview_set_num_elements sample_config sample_listview 0).req_elements = 0 ∧
    (listview_set_num_elements sample_config sample_listview 0).selected = 5 ∧
    (∀ (lv : listview) (s : Nat), 1 ≤ lv.req_elements → lv.req_elements < 4294967296 →
      (listview_set_selected lv s).selected = min s (lv.req_elements - 1) ∧
      (listview_set_selected lv s).selected < max lv.req_elements 1) ∧
    (∀ (lv : listview) (s : Nat), lv.req_elements = 0 → s < 4294967296 →
      (listview_set_selected lv s).selected = s) := by
  refine ⟨by decide, by decide, by decide, by decide, ?_, ?_⟩
  · intro lv s h1 h2
    have hs : u32_sub lv.req_elements 1 = lv.req_elements - 1 := by
      unfold u32_sub; omega
    unfold listview_set_selected
    simp only [hs]
    omega
  · intro lv s h1 h2
    have hs : u32_sub lv.req_elements 1 = 4294967295 := by
      unfold u32_sub; omega
    unfold listview_set_selected
    simp only [hs]
    omega

/-! ## Properties of the filter pass on blank queries and stale distances -/

/-- C24: the result of `rofi_view_refilter` does not depend on what the
distance table held before the call: for any two initial tables and otherwise
identical inputs (in particular with sorting on) the two runs yield the same
`filtered_lines` and the same `line_map[0..filtered_lines)`, and with sorting
on every matched entry carries the distance written in this pass. -/
theorem refilter_ignores_stale_distance (config : Config)
    (tokenize : List Char → Bool → List GRegex) (state : RofiViewState)
    (d1 d2 : Nat → Int) :
    (rofi_view_refilter config tokenize { state with distance := d1 }).filtered_lines
      = (rofi_view_refilter config tokenize { state with distance := d2 }).filtered_lines ∧
    array_upto (rofi_view_refilter config tokenize { state with distance := d1 }).line_map
        (rofi_view_refilter config tokenize { state with distance := d1 }).filtered_lines
      = array_upto (rofi_view_refilter config tokenize { state with distance := d2 }).line_map
        (rofi_view_refilter config tokenize { state with distance := d2 }).filtered_lines ∧
    (config.levenshtein_sort = true → state.text ≠ [] →
      ∀ k, k < (rofi_view_refilter config tokenize
          { state with distance := d1 }).filtered_lines →
        (rofi_view_refilter config tokenize { state with distance := d1 }).distance
            ((rofi_view_refilter config tokenize { state with distance := d1 }).line_map k)
          = refilter_distance state
            ((rofi_view_refilter config tokenize { state with distance := d1 }).line_map k)) := by
  have hn1 := rofi_view_refilter_num_lines config tokenize { state with distance := d1 }
  have hn2 := rofi_view_refilter_num_lines config tokenize { state with distance := d2 }
  have hn : (rofi_view_refilter config tokenize { state with distance := d1 }).num_lines
      = (rofi_view_refilter config tokenize { state with distance := d2 }).num_lines := by
    rw [hn1, hn2]
  have hm1 : refilter_match config tokenize { state with distance := d1 }
      = refilter_match config tokenize state := rfl
  have hm2 : refilter_match config tokenize { state with distance := d2 }
      = refilter_match config tokenize state := rfl
  have hd1 : refilter_distance { state with distance := d1 } = refilter_distance state := rfl
  have hd2 : refilter_distance { state with distance := d2 } = refilter_distance state := rfl
  by_cases htext : state.text = []
  · have h1 := rofi_view_refilter_empty config tokenize { state with distance := d1 } htext
    have h2 := rofi_view_refilter_empty config tokenize { state with distance := d2 } htext
    exact ⟨by rw [h1.1, h2.1, hn], by rw [h1.2.2, h2.2.2, hn],
      fun _ hne => absurd htext hne⟩
  · have h1 := rofi_view_refilter_filter config tokenize { state with distance := d1 } htext
    have h2 := rofi_view_refilter_filter config tokenize { state with distance := d2 } htext
    rw [hm1, hd1] at h1
    rw [hm2, hd2] at h2
    refine ⟨by rw [h1.1, h2.1, hn], by rw [h1.2.1, h2.2.1, hn], ?_⟩
    intro hs _ k hk
    apply h1.2.2 _ _ hs
    have hmem := array_upto_mem
      (rofi_view_refilter config tokenize { state with distance := d1 }).line_map _ k hk
    rw [h1.2.1, hs] at hmem
    simp only [if_true] at hmem
    exact (g_qsort_with_data_perm _ _).subset hmem


/-! ## Properties of division safety and of the centring row -/

/-- C25: with `menu_columns >= 1`, for every `num_lines` and `menu_lines`
(0 included) and in both the fixed and the non-fixed row mode,
`rofi_view_calculate_rows_columns` returns without evaluating a division or
modulo by zero; a zero divisor is met only with `menu_columns = 0`. -/
theorem rows_columns_no_zero_divisor (config : Config) (state : RofiViewState)
    (hc : 1 ≤ config.menu_columns) :
    (∃ s, rofi_view_calculate_rows_columns config state = some s) ∧
    (∀ (config' : Config) (state' : RofiViewState),
      rofi_view_calculate_rows_columns config' state' = none → config'.menu_columns = 0) := by
  have key : ∀ (config' : Config) (state' : RofiViewState), 1 ≤ config'.menu_columns →
      ∃ s, rofi_view_calculate_rows_columns config' state' = some s := by
    intro config' state' hc'
    cases hfixed : config'.fixed_num_lines
    · exact ⟨_, rofi_view_calculate_rows_columns_free config' state' hfixed hc'⟩
    · by_cases hfull : u32_mul state'.menu_lines config'.menu_columns ≤ state'.num_lines
      · exact ⟨_, rofi_view_calculate_rows_columns_fixed_full config' state' hfixed hc' hfull⟩
      · exact ⟨_, rofi_view_calculate_rows_columns_fixed_shrunk config' state' hfixed hc'
          (by omega)⟩
  refine ⟨key config state hc, ?_⟩
  intro config' state' hnone
  rcases Nat.eq_zero_or_pos config'.menu_columns with h | h
  · exact h
  · obtain ⟨s, hs⟩ := key config' state' h
    rw [hs] at hnone
    cases hnone

/-- Witness of C25: no entries and no rows with fixed rows and one column. -/
theorem rows_columns_no_zero_divisor_witness :
    1 ≤ (columns_config 1 true).menu_columns ∧
    (∃ s, rofi_view_calculate_rows_columns (columns_config 1 true) (rows_state 0 0) = some s) ∧
    (rofi_view_calculate_rows_columns (columns_config 1 true) (rows_state 0 0)).map
      (fun s => (s.max_rows, s.columns, s.max_elements)) = some (0, 1, 0) :=
  ⟨by decide,
    (rows_columns_no_zero_divisor (columns_config 1 true) (rows_state 0 0) (by decide)).1,
    by decide⟩

/-- C26: for `menu_lines >= 1` the centring row of `rofi_scroll_continious`
is `(menu_lines - 1) / 2` (1 for 4 rows, 2 for 5 rows), and for every cursor
with `middle < selected < filtered_lines - (menu_lines - middle)` the returned
offset is `selected - middle`. -/
theorem scroll_continious_centred (state : RofiViewState)
    (hml : 1 ≤ state.menu_lines) (hu1 : state.menu_lines < 4294967296)
    (hu2 : state.filtered_lines < 4294967296) :
    scroll_middle state.menu_lines = (state.menu_lines - 1) / 2 ∧
    scroll_middle 4 = 1 ∧ scroll_middle 5 = 2 ∧
    (scroll_middle state.menu_lines < state.selected →
      state.selected + (state.menu_lines - scroll_middle state.menu_lines)
        < state.filtered_lines →
      (rofi_scroll_continious state).1 = state.selected - scroll_middle state.menu_lines) := by
  have hmid := scroll_middle_eq state.menu_lines hml hu1
  refine ⟨hmid, by decide, by decide, ?_⟩
  intro h1 h2
  unfold rofi_scroll_continious
  simp only [hmid] at h1 h2 ⊢
  rw [if_pos h1]
  have hs : u32_sub state.filtered_lines
      (u32_sub state.menu_lines ((state.menu_lines - 1) / 2))
      = state.filtered_lines - (state.menu_lines - (state.menu_lines - 1) / 2) := by
    unfold u32_sub; omega
  rw [hs, if_pos (by omega)]
  unfold u32_sub
  omega

/-- Witness of C26: ten entries, four rows, the cursor on entry 5 is drawn
on row 1. -/
theorem scroll_continious_centred_witness :
    1 ≤ ({ grid_state 10 3 5 with menu_lines := 4 } : RofiViewState).menu_lines ∧
    ({ grid_state 10 3 5 with menu_lines := 4 } : RofiViewState).menu_lines < 4294967296 ∧
    ({ grid_state 10 3 5 with menu_lines := 4 } : RofiViewState).filtered_lines
      < 4294967296 ∧
    scroll_middle ({ grid_state 10 3 5 with menu_lines := 4 } : RofiViewState).menu_lines
      = (({ grid_state 10 3 5 with menu_lines := 4 } : RofiViewState).menu_lines - 1) / 2 ∧
    (rofi_scroll_continious { grid_state 10 3 5 with menu_lines := 4 }).1 = 5 - 1 :=
  ⟨by decide, by decide, by decide,
    (scroll_continious_centred { grid_state 10 3 5 with menu_lines := 4 }
      (by decide) (by decide) (by decide)).1, by decide⟩

/-- When `rofi_view_nav_right` meets its division with `max_rows = 0`. -/
theorem rofi_view_nav_right_none (state : RofiViewState) :
    rofi_view_nav_right state = none ↔
      (state.filtered_lines ≠ 0 ∧
        ¬ u32_add state.selected state.max_rows < state.filtered_lines ∧
        state.selected < u32_sub state.filtered_lines 1 ∧ state.max_rows = 0) := by
  unfold rofi_view_nav_right
  by_cases h0 : state.filtered_lines = 0
  · simp [h0]
  · rw [if_neg h0]
    by_cases h1 : u32_add state.selected state.max_rows < state.filtered_lines
    · simp [h1]
    · rw [if_neg h1]
      by_cases h2 : state.selected < u32_sub state.filtered_lines 1
      · rw [if_pos h2]
        by_cases h3 : state.max_rows = 0
        · rw [if_pos h3]
          exact ⟨fun _ => ⟨h0, h1, h2, h3⟩, fun _ => rfl⟩
        · rw [if_neg h3]
          dsimp only
          split <;> simp [h3]
      · simp [h2]

/-- C28: with `filtered_lines >= 1` and `selected < filtered_lines`, for
every `max_rows` (0 included) `rofi_view_nav_right` returns without dividing
by zero: the divisions are reached only when `selected + max_rows` is not
below `filtered_lines`, which cannot be with `max_rows = 0`. -/
theorem nav_right_no_zero_divisor (state : RofiViewState)
    (hfl : 1 ≤ state.filtered_lines) (hsel : state.selected < state.filtered_lines) :
    (∃ s, rofi_view_nav_right state = some s) ∧
    (state.max_rows = 0 →
      u32_add state.selected state.max_rows < state.filtered_lines ∧
      rofi_view_nav_right state
        = some { state with
            selected := u32_add state.selected state.max_rows, update := true }) ∧
    (∀ state' : RofiViewState, rofi_view_nav_right state' = none →
      state'.max_rows = 0 ∧
      ¬ u32_add state'.selected state'.max_rows < state'.filtered_lines) := by
  have hz : state.max_rows = 0 →
      u32_add state.selected state.max_rows < state.filtered_lines := by
    intro h
    rw [h]
    unfold u32_add
    omega
  refine ⟨?_, ?_, ?_⟩
  · cases hr : rofi_view_nav_right state with
    | some s => exact ⟨s, rfl⟩
    | none =>
      have h := (rofi_view_nav_right_none state).mp hr
      exact absurd (hz h.2.2.2) h.2.1
  · intro h
    refine ⟨hz h, ?_⟩
    unfold rofi_view_nav_right
    rw [if_neg (by omega), if_pos (hz h)]
  · intro state' hr
    have h := (rofi_view_nav_right_none state').mp hr
    exact ⟨h.2.2.2, h.2.1⟩

/-- Witness of C28: three entries shown with no row fitting the window. -/
theorem nav_right_no_zero_divisor_witness :
    1 ≤ (grid_state 3 0 1).filtered_lines ∧
    (grid_state 3 0 1).selected < (grid_state 3 0 1).filtered_lines ∧
    (∃ s, rofi_view_nav_right (grid_state 3 0 1) = some s) ∧
    (rofi_view_nav_right (grid_state 3 0 1)).map RofiViewState.selected = some 1 :=
  ⟨by decide, by decide,
    (nav_right_no_zero_divisor (grid_state 3 0 1) (by decide) (by decide)).1, by decide⟩


/-! ## Properties of the next position -/

/-- C30: after an empty query (identity line map over six entries) and then
the query `aaa` (entries 0, 2, 4 shown, cursor on the last of them),
`rofi_view_get_next_position` returns `line_map[3] = 3`, a slot beyond
`filtered_lines` left over from the earlier pass, which is neither
`selected_line` nor an entry of the filtered result: the guard compares
`selected + 1` with `num_lines`, not with `filtered_lines`.  In general the
function returns `line_map[selected + 1]` whenever `selected + 1 < num_lines`
and `selected_line` otherwise. -/
theorem next_position_reads_stale_slot :
    sample_refiltered.num_lines = 6 ∧ sample_refiltered.filtered_lines = 3 ∧
    array_upto sample_refiltered.line_map sample_refiltered.filtered_lines = [0, 2, 4] ∧
    sample_refiltered.selected = 2 ∧
    sample_refiltered.selected < max sample_refiltered.filtered_lines 1 ∧
    rofi_view_get_next_position sample_refiltered = 3 ∧
    rofi_view_get_next_position sample_refiltered = sample_refiltered.line_map 3 ∧
    rofi_view_get_next_position sample_refiltered ≠ sample_refiltered.selected_line ∧
    rofi_view_get_next_position sample_refiltered
      ∉ array_upto sample_refiltered.line_map sample_refiltered.filtered_lines ∧
    (∀ state : RofiViewState, state.selected + 1 < 4294967296 →
      (state.selected + 1 < state.num_lines →
        rofi_view_get_next_position state = state.line_map (state.selected + 1)) ∧
      (state.num_lines ≤ state.selected + 1 →
        rofi_view_get_next_position state = state.selected_line)) := by
  refine ⟨by decide, by decide, by decide, by decide, by decide, by decide, by decide,
    by decide, by decide, ?_⟩
  intro state hu
  have ha : u32_add state.selected 1 = state.selected + 1 := by
    unfold u32_add; omega
  unfold rofi_view_get_next_position
  rw [ha]
  exact ⟨fun h => by rw [if_pos h], fun h => by rw [if_neg (by omega)]⟩

/-! ## Properties of the recursion of the edit distance -/

theorem u32_sub_small (a b : Nat) (h1 : b ≤ a) (h2 : a < 4294967296) : u32_sub a b = a - b := by
  unfold u32_sub
  rw [Nat.mod_eq_of_lt (show b < 4294967296 by omega)]
  omega

theorem combi_mode_init_loop_spec :
    ∀ (sws : List CombiMode) (i : Nat) (pd : CombiModePrivateData),
      pd.cmd_list_length + (sws.map fun sw => mode_get_num_entries sw.mode).sum < 4294967296 →
      (combi_mode_init_loop i sws pd).switchers = pd.switchers ∧
      (combi_mode_init_loop i sws pd).cmd_list_length
        = pd.cmd_list_length + (sws.map fun sw => mode_get_num_entries sw.mode).sum ∧
      (∀ k, k < i → (combi_mode_init_loop i sws pd).starts k = pd.starts k ∧
        (combi_mode_init_loop i sws pd).lengths k = pd.lengths k) ∧
      (∀ m (hm : m < sws.length),
        (combi_mode_init_loop i sws pd).starts (i + m)
          = pd.cmd_list_length
            + ((sws.take m).map fun sw => mode_get_num_entries sw.mode).sum ∧
        (combi_mode_init_loop i sws pd).lengths (i + m)
          = mode_get_num_entries (sws[m]).mode) := by
  intro sws
  induction sws with
  | nil =>
    intro i pd _
    refine ⟨rfl, ?_, ?_, ?_⟩
    · simp [combi_mode_init_loop]
    · intro k _
      exact ⟨rfl, rfl⟩
    · intro m hm
      simp at hm
  | cons sw rest ih =>
    intro i pd hb
    simp only [List.map_cons, List.sum_cons] at hb
    have hadd : u32_add pd.cmd_list_length (mode_get_num_entries sw.mode)
        = pd.cmd_list_length + mode_get_num_entries sw.mode :=
      u32_add_small _ _ (by omega)
    have hstep : combi_mode_init_loop i (sw :: rest) pd
        = combi_mode_init_loop (i + 1) rest
          { cmd_list_length := pd.cmd_list_length + mode_get_num_entries sw.mode
            starts := array_set pd.starts i pd.cmd_list_length
            lengths := array_set pd.lengths i (mode_get_num_entries sw.mode)
            switchers := pd.switchers } := by
      rw [combi_mode_init_loop, hadd]
    obtain ⟨h1, h2, h3, h4⟩ := ih (i + 1)
      { cmd_list_length := pd.cmd_list_length + mode_get_num_entries sw.mode
        starts := array_set pd.starts i pd.cmd_list_length
        lengths := array_set pd.lengths i (mode_get_num_entries sw.mode)
        switchers := pd.switchers } (by show _ + _ + _ < _; omega)
    rw [hstep]
    refine ⟨h1, ?_, ?_, ?_⟩
    · rw [h2]
      simp only [List.map_cons, List.sum_cons]
      omega
    · intro k hk
      obtain ⟨e1, e2⟩ := h3 k (by omega)
      rw [e1, e2]
      have hne : ¬ k = i := by omega
      constructor
      · show array_set pd.starts i pd.cmd_list_length k = pd.starts k
        unfold array_set
        rw [if_neg hne]
      · show array_set pd.lengths i (mode_get_num_entries sw.mode) k = pd.lengths k
        unfold array_set
        rw [if_neg hne]
    · intro m hm
      cases m with
      | zero =>
        obtain ⟨e1, e2⟩ := h3 i (by omega)
        show (combi_mode_init_loop (i + 1) rest _).starts i = _ ∧
          (combi_mode_init_loop (i + 1) rest _).lengths i = _
        rw [e1, e2]
        constructor
        · show array_set pd.starts i pd.cmd_list_length i = _
          unfold array_set
          simp
        · show array_set pd.lengths i (mode_get_num_entries sw.mode) i = _
          unfold array_set
          simp
      | succ m =>
        have hm' : m < rest.length := by
          simp only [List.length_cons] at hm
          omega
        obtain ⟨e1, e2⟩ := h4 m hm'
        have hidx : i + (m + 1) = i + 1 + m := by omega
        rw [hidx, e1, e2]
        constructor
        · simp only [List.take_succ_cons, List.map_cons, List.sum_cons]
          omega
        · simp only [List.getElem_cons_succ]

theorem sum_take_le (lens : List Nat) : ∀ m, (lens.take m).sum ≤ lens.sum := by
  induction lens with
  | nil => intro m; simp
  | cons l rest ih =>
    intro m
    cases m with
    | zero => simp
    | succ m =>
      have := ih m
      simp only [List.take_succ_cons, List.sum_cons]
      omega

theorem combi_mode_match_loop_spec (starts lengths : Nat → Nat) (tokens : List GRegex)
    (index : Nat) :
    ∀ (sws : List CombiMode) (i base : Nat),
      base + (sws.map fun sw => mode_get_num_entries sw.mode).sum < 4294967296 →
      (∀ m (hm : m < sws.length),
        starts (i + m)
          = base + ((sws.take m).map fun sw => mode_get_num_entries sw.mode).sum ∧
        lengths (i + m) = mode_get_num_entries (sws[m]).mode) →
      (index < base → combi_mode_match_loop starts lengths tokens index i sws = false) ∧
      (base + (sws.map fun sw => mode_get_num_entries sw.mode).sum ≤ index →
        combi_mode_match_loop starts lengths tokens index i sws = false) ∧
      (∀ m (hm : m < sws.length), starts (i + m) ≤ index →
        index < starts (i + m) + lengths (i + m) →
        combi_mode_match_loop starts lengths tokens index i sws
          = if (sws[m]).disable then false
            else mode_token_match (sws[m]).mode tokens (index - starts (i + m))) := by
  intro sws
  induction sws with
  | nil =>
    intro i base _ _
    refine ⟨fun _ => rfl, fun _ => rfl, ?_⟩
    intro m hm
    simp at hm
  | cons sw rest ih =>
    intro i base hb H
    simp only [List.map_cons, List.sum_cons] at hb
    have H0 := H 0 (by simp)
    simp only [Nat.add_zero, List.take_zero, List.map_nil, List.sum_nil,
      List.getElem_cons_zero] at H0
    obtain ⟨hs0, hl0⟩ := H0
    have hadd : u32_add (starts i) (lengths i) = starts i + lengths i :=
      u32_add_small _ _ (by omega)
    have Hrest : ∀ m (hm : m < rest.length),
        starts (i + 1 + m)
          = base + mode_get_num_entries sw.mode
            + ((rest.take m).map fun sw => mode_get_num_entries sw.mode).sum ∧
        lengths (i + 1 + m) = mode_get_num_entries (rest[m]).mode := by
      intro m hm
      have h := H (m + 1) (by simp only [List.length_cons]; omega)
      have hidx : i + (m + 1) = i + 1 + m := by omega
      simp only [hidx, List.take_succ_cons, List.map_cons, List.sum_cons,
        List.getElem_cons_succ] at h
      exact ⟨by omega, h.2⟩
    obtain ⟨ih1, ih2, ih3⟩ :=
      ih (i + 1) (base + mode_get_num_entries sw.mode) (by omega) Hrest
    have hskip : ¬ (index ≥ starts i ∧ index < starts i + lengths i) →
        combi_mode_match_loop starts lengths tokens index i (sw :: rest)
          = combi_mode_match_loop starts lengths tokens index (i + 1) rest := by
      intro hn
      rw [combi_mode_match_loop, hadd]
      cases sw.disable with
      | true => rfl
      | false =>
        simp only [Bool.false_eq_true, if_false]
        rw [if_neg hn]
    refine ⟨?_, ?_, ?_⟩
    · intro hlt
      rw [hskip (by omega)]
      exact ih1 (by omega)
    · intro hge
      simp only [List.map_cons, List.sum_cons] at hge
      rw [hskip (by omega)]
      exact ih2 (by omega)
    · intro m hm h1 h2
      cases m with
      | zero =>
        simp only [Nat.add_zero, List.getElem_cons_zero] at h1 h2 ⊢
        rw [combi_mode_match_loop, hadd]
        cases hd : sw.disable with
        | true =>
          simp only [if_true]
          exact ih1 (by omega)
        | false =>
          simp only [Bool.false_eq_true, if_false]
          rw [if_pos ⟨h1, h2⟩, u32_sub_small _ _ h1 (by omega)]
      | succ m =>
        have hm' : m < rest.length := by
          simp only [List.length_cons] at hm
          omega
        have hidx : i + (m + 1) = i + 1 + m := by omega
        simp only [hidx, List.getElem_cons_succ] at h1 h2 ⊢
        have hst := (Hrest m hm').1
        rw [hskip (by omega)]
        exact ih3 m hm' h1 h2

theorem owner_exists (lens : List Nat) :
    ∀ (base index : Nat), base ≤ index → index < base + lens.sum →
      ∃ m, m < lens.length ∧ base + (lens.take m).sum ≤ index ∧
        index < base + (lens.take m).sum + lens.getD m 0 := by
  induction lens with
  | nil =>
    intro base index h1 h2
    simp at h2
    omega
  | cons l rest ih =>
    intro base index h1 h2
    simp only [List.sum_cons] at h2
    by_cases h : index < base + l
    · refine ⟨0, by simp, ?_, ?_⟩
      · simpa using h1
      · simpa using h
    · obtain ⟨m, hm, e1, e2⟩ := ih (base + l) index (by omega) (by omega)
      refine ⟨m + 1, by simp only [List.length_cons]; omega, ?_, ?_⟩
      · simp only [List.take_succ_cons, List.sum_cons]
        omega
      · simp only [List.take_succ_cons, List.sum_cons, List.getD_cons_succ]
        omega

theorem owner_before (lens : List Nat) :
    ∀ (m k : Nat), m < k → k ≤ lens.length →
      (lens.take m).sum + lens.getD m 0 ≤ (lens.take k).sum := by
  induction lens with
  | nil =>
    intro m k h1 h2
    simp at h2
    omega
  | cons l rest ih =>
    intro m k h1 h2
    cases k with
    | zero => omega
    | succ k =>
      simp only [List.length_cons] at h2
      cases m with
      | zero => simp
      | succ m =>
        have := ih m k (by omega) (by omega)
        simp only [List.take_succ_cons, List.sum_cons, List.getD_cons_succ]
        omega


theorem combi_mode_init_ranges (mode_init : Mode → Bool) (parsed : List Mode)
    (hinit : (combi_mode_init mode_init parsed none).1 = true)
    (hfit : (parsed.map mode_get_num_entries).sum < 4294967296) :
    ∃ pd, (combi_mode_init mode_init parsed none).2 = some pd ∧
      pd.switchers.map CombiMode.mode = parsed ∧
      (∀ sw ∈ pd.switchers, sw.disable = false) ∧
      pd.cmd_list_length = (parsed.map mode_get_num_entries).sum ∧
      ∀ m (hm : m < parsed.length),
        pd.starts m = ((parsed.take m).map mode_get_num_entries).sum ∧
        pd.lengths m = mode_get_num_entries parsed[m] := by
  have hmodes : (parsed.map fun m => ({ mode := m, disable := false } : CombiMode)).map
      CombiMode.mode = parsed := by
    rw [List.map_map]
    exact List.map_id _
  have hlens : ∀ sws : List CombiMode,
      (sws.map fun sw => mode_get_num_entries sw.mode)
        = (sws.map CombiMode.mode).map mode_get_num_entries := by
    intro sws
    rw [List.map_map]
    rfl
  obtain ⟨h1, h2, _, h4⟩ := combi_mode_init_loop_spec
    (parsed.map fun m => ({ mode := m, disable := false } : CombiMode)) 0
    { cmd_list_length := 0, starts := fun _ => 0, lengths := fun _ => 0
      switchers := parsed.map fun m => ({ mode := m, disable := false } : CombiMode) }
    (by rw [hlens, hmodes]; show 0 + _ < _; omega)
  refine ⟨combi_mode_init_loop 0
    (parsed.map fun m => ({ mode := m, disable := false } : CombiMode))
    { cmd_list_length := 0, starts := fun _ => 0, lengths := fun _ => 0
      switchers := parsed.map fun m => ({ mode := m, disable := false } : CombiMode) },
    ?_, ?_, ?_, ?_, ?_⟩
  · unfold combi_mode_init at hinit ⊢
    simp only at hinit ⊢
    split at hinit
    · rename_i hall
      rw [if_pos hall, if_pos trivial]
    · exact absurd hinit (by simp)
  · rw [h1]
    exact hmodes
  · intro sw hsw
    rw [h1] at hsw
    obtain ⟨m, _, rfl⟩ := List.mem_map.mp hsw
    rfl
  · rw [h2, hlens, hmodes]
    show 0 + _ = _
    omega
  · intro m hm
    obtain ⟨e1, e2⟩ := h4 m (by rw [List.length_map]; exact hm)
    rw [Nat.zero_add] at e1 e2
    rw [e1, e2]
    constructor
    · show 0 + _ = _
      rw [Nat.zero_add, ← List.map_take, List.map_map]
      rfl
    · simp only [List.getElem_map]

theorem sum_range_eq_sum_take (f : Nat → Nat) (lens : List Nat) :
    ∀ i, i ≤ lens.length → (∀ k (hk : k < lens.length), f k = lens[k]) →
      ((List.range i).map f).sum = (lens.take i).sum := by
  intro i
  induction i with
  | zero => intro _ _; simp
  | succ i ih =>
    intro hi hf
    have hi' : i < lens.length := by omega
    rw [List.range_succ, List.map_append, List.sum_append, ih (by omega) hf,
      List.take_succ, List.sum_append, List.getElem?_eq_getElem hi']
    simp [hf i hi']


/-- C27, as stated, fails: with sub-providers of 4294967295 and 2 entries the
running sum wraps as `unsigned int`.  `combi_mode_init` leaves
`cmd_list_length = 1`, which is not the sum 4294967297 of the lengths, and
`combi_mode_match` on index 2, which is not below `cmd_list_length`, returns
the answer 1 of the enabled first sub-provider instead of 0. -/
theorem combi_ranges_sum_wraps :
    (combi_mode_init (fun _ => true)
      [sample_mode_sized 4294967295, sample_mode_sized 2] none).1 = true ∧
    (combi_mode_init (fun _ => true)
      [sample_mode_sized 4294967295, sample_mode_sized 2] none).2.map
      (fun pd => (pd.cmd_list_length, pd.starts 0, pd.lengths 0, pd.starts 1, pd.lengths 1,
        ((List.range 2).map pd.lengths).sum))
      = some (1, 0, 4294967295, 4294967295, 2, 4294967297) ∧
    ¬ (∃ pd, (combi_mode_init (fun _ => true)
        [sample_mode_sized 4294967295, sample_mode_sized 2] none).2 = some pd ∧
      pd.cmd_list_length = ((List.range 2).map pd.lengths).sum) ∧
    (combi_mode_init (fun _ => true)
      [sample_mode_sized 4294967295, sample_mode_sized 2] none).2.map
      (fun pd => (decide (pd.cmd_list_length ≤ 2), combi_mode_match pd [] 2))
      = some (true, true) := by
  refine ⟨rfl, by decide, ?_, by decide⟩
  rintro ⟨pd, hpd, h⟩
  have h2 : (combi_mode_init (fun _ => true)
      [sample_mode_sized 4294967295, sample_mode_sized 2] none).2.map
      (fun pd => decide (pd.cmd_list_length = ((List.range 2).map pd.lengths).sum))
      = some false := by decide
  rw [hpd] at h2
  simp only [Option.map_some', Option.some.injEq, decide_eq_false_iff_not] at h2
  exact h2 h

/-- C27, amended: when `combi_mode_init` has succeeded on a fresh provider
whose sub-providers together hold fewer than 2^32 entries (so that no sum
wraps as `unsigned int`), `lengths[i]` is the number of entries of
sub-provider `i`, `starts[i]` is the sum of `lengths[k]` for
`k < i`, and `cmd_list_length` is the sum of all lengths; every index below
`cmd_list_length` lies in the range `[starts[i], starts[i] + lengths[i])` of
exactly one `i`, with local index `index - starts[i] < lengths[i]`.  Whatever
sub-providers are disabled afterwards, `combi_mode_match` on an index in the
range of `i` returns `mode_token_match` of sub-provider `i` on the local index
when it is enabled and 0 when it is disabled, and returns 0 on every index at
or above `cmd_list_length`. -/
theorem combi_init_ranges_and_match (mode_init : Mode → Bool) (parsed : List Mode)
    (hinit : (combi_mode_init mode_init parsed none).1 = true)
    (hfit : (parsed.map mode_get_num_entries).sum < 4294967296) :
    ∃ pd, (combi_mode_init mode_init parsed none).2 = some pd ∧
      pd.switchers.map CombiMode.mode = parsed ∧
      (∀ i (hi : i < parsed.length), pd.lengths i = mode_get_num_entries parsed[i]) ∧
      (∀ i, i < parsed.length → pd.starts i = ((List.range i).map pd.lengths).sum) ∧
      pd.cmd_list_length = ((List.range parsed.length).map pd.lengths).sum ∧
      (∀ index, index < pd.cmd_list_length →
        ∃ i, i < parsed.length ∧ pd.starts i ≤ index ∧
          index < pd.starts i + pd.lengths i ∧ index - pd.starts i < pd.lengths i ∧
          ∀ k, k < parsed.length → pd.starts k ≤ index →
            index < pd.starts k + pd.lengths k → k = i) ∧
      (∀ (sws : List CombiMode), sws.map CombiMode.mode = parsed →
        ∀ (tokens : List GRegex) (index : Nat),
          (∀ i (hi : i < sws.length), pd.starts i ≤ index →
            index < pd.starts i + pd.lengths i →
            combi_mode_match { pd with switchers := sws } tokens index
              = if (sws[i]).disable then false
                else mode_token_match (sws[i]).mode tokens (index - pd.starts i)) ∧
          (pd.cmd_list_length ≤ index →
            combi_mode_match { pd with switchers := sws } tokens index = false)) := by
  obtain ⟨pd, hpd, hsw, _, hcl, hst⟩ := combi_mode_init_ranges mode_init parsed hinit hfit
  have hlen : (parsed.map mode_get_num_entries).length = parsed.length := List.length_map _ _
  have S : ∀ k, k < parsed.length →
      pd.starts k = ((parsed.map mode_get_num_entries).take k).sum ∧
      pd.lengths k = (parsed.map mode_get_num_entries).getD k 0 := by
    intro k hk
    obtain ⟨e1, e2⟩ := hst k hk
    refine ⟨by rw [e1, List.map_take], ?_⟩
    rw [e2, List.getD_eq_getElem _ _ (by rw [hlen]; exact hk), List.getElem_map]
  have F : ∀ k (hk : k < (parsed.map mode_get_num_entries).length),
      pd.lengths k = (parsed.map mode_get_num_entries)[k] := by
    intro k hk
    rw [(hst k (by rw [← hlen]; exact hk)).2, List.getElem_map]
  refine ⟨pd, hpd, hsw, fun i hi => (hst i hi).2, ?_, ?_, ?_, ?_⟩
  · intro i hi
    rw [(S i hi).1]
    exact (sum_range_eq_sum_take pd.lengths _ i (by omega) F).symm
  · rw [hcl, sum_range_eq_sum_take pd.lengths _ parsed.length (by omega) F, ← hlen,
      List.take_length]
  · intro index hidx
    rw [hcl] at hidx
    obtain ⟨m, hm, o1, o2⟩ :=
      owner_exists (parsed.map mode_get_num_entries) 0 index (Nat.zero_le _) (by omega)
    rw [hlen] at hm
    obtain ⟨s1, s2⟩ := S m hm
    refine ⟨m, hm, by omega, by omega, by omega, ?_⟩
    intro k hk k1 k2
    obtain ⟨t1, t2⟩ := S k hk
    rcases Nat.lt_trichotomy k m with h | h | h
    · have := owner_before (parsed.map mode_get_num_entries) k m h (by omega)
      omega
    · exact h
    · have := owner_before (parsed.map mode_get_num_entries) m k h (by omega)
      omega
  · intro sws hsws tokens index
    subst hsws
    have H : ∀ m (hm : m < sws.length),
        pd.starts (0 + m)
          = 0 + ((sws.take m).map fun sw => mode_get_num_entries sw.mode).sum ∧
        pd.lengths (0 + m) = mode_get_num_entries (sws[m]).mode := by
      intro m hm
      obtain ⟨e1, e2⟩ := hst m (by rw [List.length_map]; exact hm)
      rw [Nat.zero_add, Nat.zero_add, e1, e2, ← List.map_take, List.map_map,
        List.getElem_map]
      exact ⟨rfl, rfl⟩
    have hb : 0 + (sws.map fun sw => mode_get_num_entries sw.mode).sum < 4294967296 := by
      rw [List.map_map] at hfit
      rw [Nat.zero_add]
      exact hfit
    obtain ⟨_, r2, r3⟩ :=
      combi_mode_match_loop_spec pd.starts pd.lengths tokens index sws 0 0 hb H
    constructor
    · intro i hi i1 i2
      have := r3 i hi (by rw [Nat.zero_add]; exact i1) (by rw [Nat.zero_add]; exact i2)
      rw [Nat.zero_add] at this
      exact this
    · intro hge
      apply r2
      rw [hcl, List.map_map] at hge
      rw [Nat.zero_add]
      exact hge


/-- Witness of C27 (amended): two sub-providers of six entries each give the ranges
`[0, 6)` and `[6, 12)`. -/
theorem combi_init_ranges_and_match_witness :
    (combi_mode_init (fun _ => true) [sample_mode, sample_mode] none).1 = true ∧
    ([sample_mode, sample_mode].map mode_get_num_entries).sum < 4294967296 ∧
    (∃ pd, (combi_mode_init (fun _ => true) [sample_mode, sample_mode] none).2 = some pd ∧
      pd.switchers.map CombiMode.mode = [sample_mode, sample_mode] ∧
      pd.cmd_list_length = ((List.range 2).map pd.lengths).sum) ∧
    (combi_mode_init (fun _ => true) [sample_mode, sample_mode] none).2.map
      (fun pd => (pd.cmd_list_length, pd.starts 0, pd.lengths 0, pd.starts 1, pd.lengths 1))
      = some (12, 0, 6, 6, 6) :=
  ⟨rfl, by decide,
    (combi_init_ranges_and_match (fun _ => true) [sample_mode, sample_mode] rfl
      (by decide)).imp fun _ h => ⟨h.1, h.2.1, h.2.2.2.2.1⟩,
    by decide⟩

end Rofi
